import Mathlib

/-!
# Verification of the BitMap-image-editing BMP codec and filters

This file gives a shallow embedding of `src/bitmap.h` / `src/bitmap.cpp`
(a BMP decoder/encoder plus in-place pixel filters) and proves or refutes
the specification's claims about it.

Conventions of the embedding:
* machine bytes (`uint8_t`) are `Nat`s kept below 256 by hypotheses or by
  construction; `uint16_t`/`uint32_t` arithmetic wraps with explicit
  `% 65536` / `% 2 ^ 32` where the source can overflow;
* `int32_t` header fields (`width`, `height`, ...) are `Int`s; C++ signed
  division/modulo truncate toward zero, so they are modeled by `Int.tdiv` /
  `Int.tmod`;
* the pixel buffer `std::vector<uint8_t> data` is a `List Nat`; raw-pointer
  writes become `List.set` (writes outside the allocation are undefined
  behavior in C++ and are modeled as no-ops); raw-pointer reads become
  `List.getD _ _ 0` (reads outside the allocation are likewise undefined
  behavior, modeled as 0);
* `std::istream` is a byte list plus a read position and a fail flag.
-/

namespace BitmapImage

/-! ## Little-endian byte serialization -/

/-- Value of a little-endian byte sequence. -/
def leNat (bs : List Nat) : Nat := bs.foldr (fun b acc => b + 256 * acc) 0

/-- `n`-byte little-endian encoding of `x` (truncating above `256 ^ n`). -/
def encLE : Nat → Nat → List Nat
  | 0, _ => []
  | n + 1, x => x % 256 :: encLE n (x / 256)

@[simp] theorem encLE_length (n x : Nat) : (encLE n x).length = n := by
  induction n generalizing x with
  | zero => rfl
  | succ n ih => simp [encLE, ih]

theorem leNat_encLE {n x : Nat} (h : x < 256 ^ n) : leNat (encLE n x) = x := by
  induction n generalizing x with
  | zero =>
    have hx : x = 0 := by
      have h1 := h
      norm_num at h1
      omega
    subst hx
    rfl
  | succ n ih =>
    have hdiv : x / 256 < 256 ^ n := by
      rw [Nat.div_lt_iff_lt_mul (by norm_num)]
      calc x < 256 ^ (n + 1) := h
        _ = 256 ^ n * 256 := by ring
    simp only [encLE, leNat, List.foldr_cons]
    have : leNat (encLE n (x / 256)) = x / 256 := ih hdiv
    simp only [leNat] at this
    rw [this]
    omega

theorem encLE_mem_lt {n x b : Nat} (h : b ∈ encLE n x) : b < 256 := by
  induction n generalizing x with
  | zero => simp [encLE] at h
  | succ n ih =>
    simp only [encLE, List.mem_cons] at h
    rcases h with h | h
    · omega
    · exact ih h

theorem encLE_leNat {bs : List Nat} (hb : ∀ b ∈ bs, b < 256) :
    encLE bs.length (leNat bs) = bs := by
  induction bs with
  | nil => rfl
  | cons a t ih =>
    have ha : a < 256 := hb a (by simp)
    have ht : ∀ b ∈ t, b < 256 := fun b h => hb b (by simp [h])
    simp only [List.length_cons, encLE, leNat, List.foldr_cons]
    have hhead : (a + 256 * t.foldr (fun b acc => b + 256 * acc) 0) % 256 = a := by omega
    have hdiv : (a + 256 * t.foldr (fun b acc => b + 256 * acc) 0) / 256
        = t.foldr (fun b acc => b + 256 * acc) 0 := by omega
    rw [hhead, hdiv]
    have htail := ih ht
    simp only [leNat] at htail
    rw [htail]

/-- Little-endian encoding of a C++ `int32_t` (two's complement, `2 ^ 32 = 4294967296`). -/
def encLE32i (x : Int) : List Nat := encLE 4 (x % 4294967296).toNat

/-- Decode 4 little-endian bytes as a C++ `int32_t`
(two's complement, `2 ^ 31 = 2147483648`). -/
def decI32 (bs : List Nat) : Int :=
  let v := leNat bs
  if v < 2147483648 then (v : Int) else (v : Int) - 4294967296

theorem decI32_encLE32i {x : Int} (h₁ : -2147483648 ≤ x) (h₂ : x < 2147483648) :
    decI32 (encLE32i x) = x := by
  simp only [decI32, encLE32i]
  have hmod : (0:Int) ≤ x % 4294967296 := Int.emod_nonneg x (by norm_num)
  have hlt : x % 4294967296 < 4294967296 := Int.emod_lt_of_pos x (by norm_num)
  have hv : leNat (encLE 4 (x % 4294967296).toNat) = (x % 4294967296).toNat := by
    apply leNat_encLE
    show (x % 4294967296).toNat < 4294967296
    omega
  simp only [hv]
  have ht : ((x % 4294967296).toNat : Int) = x % 4294967296 := Int.toNat_of_nonneg hmod
  split <;> (rw [ht]; omega)

/-! ## Byte-list slices -/

/-- `n` bytes of `bs` starting at position `p`. -/
def sliceAt (bs : List Nat) (p n : Nat) : List Nat := (bs.drop p).take n

@[simp] theorem sliceAt_exact (a b : List Nat) (n : Nat) (h : a.length = n) :
    sliceAt (a ++ b) 0 n = a := by
  subst h
  simp [sliceAt, List.take_left]

@[simp] theorem sliceAt_append_skip (a b : List Nat) (p n : Nat) (h : a.length ≤ p) :
    sliceAt (a ++ b) p n = sliceAt b (p - a.length) n := by
  simp [sliceAt, List.drop_append_eq_append_drop, Nat.sub_eq_zero_of_le h,
    List.drop_eq_nil_of_le h]

theorem sliceAt_nil (p n : Nat) : sliceAt [] p n = [] := by simp [sliceAt]

/-! ## Header structures (`bitmap.h`, `#pragma pack(1)`) -/

/-- `struct BMPFileHeader` (14 bytes on the wire). -/
structure BMPFileHeader where
  file_type : Nat    -- uint16_t, "BM" = 0x4D42
  file_size : Nat    -- uint32_t
  reserved1 : Nat    -- uint16_t
  reserved2 : Nat    -- uint16_t
  offset_data : Nat  -- uint32_t
deriving DecidableEq, Repr

/-- `struct BMPInfoHeader` (40 bytes on the wire). -/
structure BMPInfoHeader where
  size : Nat                -- uint32_t
  width : Int               -- int32_t
  height : Int              -- int32_t
  planes : Nat              -- uint16_t
  bit_count : Nat           -- uint16_t
  compression : Nat         -- uint32_t
  size_image : Nat          -- uint32_t
  x_pixels_per_meter : Int  -- int32_t
  y_pixels_per_meter : Int  -- int32_t
  colors_used : Nat         -- uint32_t
  colors_important : Nat    -- uint32_t
deriving DecidableEq, Repr

/-- `struct BMPColorHeader` (84 bytes on the wire: four masks, the color
space tag, and 16 reserved `uint32_t` words, modeled as their 64 raw
bytes `unused`). -/
structure BMPColorHeader where
  red_mask : Nat         -- uint32_t, default 0x00ff0000
  green_mask : Nat       -- uint32_t, default 0x0000ff00
  blue_mask : Nat        -- uint32_t, default 0x000000ff
  alpha_mask : Nat       -- uint32_t, default 0xff000000
  color_space_type : Nat -- uint32_t, default "sRGB" = 0x73524742
  unused : List Nat      -- 64 raw bytes
deriving DecidableEq, Repr

/-- `class Bitmap` (the aggregate). -/
structure Bitmap where
  row_stride : Nat       -- uint32_t, default 0
  imageType : Nat        -- uint16_t, default 0
  file_header : BMPFileHeader
  bmp_info_header : BMPInfoHeader
  bmp_color_header : BMPColorHeader
  data : List Nat        -- std::vector<uint8_t>
deriving DecidableEq, Repr

/-- A default-constructed `Bitmap` (all header fields zero-initialized by the
member initializers; the color header carries its default masks). -/
def Bitmap.default : Bitmap :=
  { row_stride := 0
    imageType := 0
    file_header := { file_type := 0, file_size := 0, reserved1 := 0, reserved2 := 0,
                     offset_data := 0 }
    bmp_info_header := { size := 0, width := 0, height := 0, planes := 0, bit_count := 0,
                         compression := 0, size_image := 0, x_pixels_per_meter := 0,
                         y_pixels_per_meter := 0, colors_used := 0, colors_important := 0 }
    bmp_color_header := { red_mask := 0x00ff0000, green_mask := 0x0000ff00,
                          blue_mask := 0x000000ff, alpha_mask := 0xff000000,
                          color_space_type := 0x73524742, unused := List.replicate 64 0 }
    data := [] }

/-! ## Wire (de)serialization of the packed structs (little-endian) -/

def serFileHeader (h : BMPFileHeader) : List Nat :=
  encLE 2 h.file_type ++ encLE 4 h.file_size ++ encLE 2 h.reserved1 ++
    encLE 2 h.reserved2 ++ encLE 4 h.offset_data

def parseFileHeader (bs : List Nat) : BMPFileHeader :=
  { file_type := leNat (sliceAt bs 0 2)
    file_size := leNat (sliceAt bs 2 4)
    reserved1 := leNat (sliceAt bs 6 2)
    reserved2 := leNat (sliceAt bs 8 2)
    offset_data := leNat (sliceAt bs 10 4) }

def serInfoHeader (h : BMPInfoHeader) : List Nat :=
  encLE 4 h.size ++ encLE32i h.width ++ encLE32i h.height ++ encLE 2 h.planes ++
    encLE 2 h.bit_count ++ encLE 4 h.compression ++ encLE 4 h.size_image ++
    encLE32i h.x_pixels_per_meter ++ encLE32i h.y_pixels_per_meter ++
    encLE 4 h.colors_used ++ encLE 4 h.colors_important

def parseInfoHeader (bs : List Nat) : BMPInfoHeader :=
  { size := leNat (sliceAt bs 0 4)
    width := decI32 (sliceAt bs 4 4)
    height := decI32 (sliceAt bs 8 4)
    planes := leNat (sliceAt bs 12 2)
    bit_count := leNat (sliceAt bs 14 2)
    compression := leNat (sliceAt bs 16 4)
    size_image := leNat (sliceAt bs 20 4)
    x_pixels_per_meter := decI32 (sliceAt bs 24 4)
    y_pixels_per_meter := decI32 (sliceAt bs 28 4)
    colors_used := leNat (sliceAt bs 32 4)
    colors_important := leNat (sliceAt bs 36 4) }

def serColorHeader (h : BMPColorHeader) : List Nat :=
  encLE 4 h.red_mask ++ encLE 4 h.green_mask ++ encLE 4 h.blue_mask ++
    encLE 4 h.alpha_mask ++ encLE 4 h.color_space_type ++
    (h.unused.take 64 ++ List.replicate (64 - h.unused.length) 0)

def parseColorHeader (bs : List Nat) : BMPColorHeader :=
  { red_mask := leNat (sliceAt bs 0 4)
    green_mask := leNat (sliceAt bs 4 4)
    blue_mask := leNat (sliceAt bs 8 4)
    alpha_mask := leNat (sliceAt bs 12 4)
    color_space_type := leNat (sliceAt bs 16 4)
    unused := sliceAt bs 20 64 }

@[simp] theorem serFileHeader_length (h : BMPFileHeader) : (serFileHeader h).length = 14 := by
  simp [serFileHeader]

@[simp] theorem encLE32i_length (x : Int) : (encLE32i x).length = 4 := by
  simp [encLE32i]

@[simp] theorem serInfoHeader_length (h : BMPInfoHeader) : (serInfoHeader h).length = 40 := by
  simp [serInfoHeader]

@[simp] theorem serColorHeader_length (h : BMPColorHeader) : (serColorHeader h).length = 84 := by
  simp only [serColorHeader, List.length_append, List.length_take, List.length_replicate,
    encLE_length]
  rcases Nat.le_total 64 h.unused.length with hle | hle
  · rw [min_eq_left hle]
    omega
  · rw [min_eq_right hle]
    omega

/-- Well-formedness of the numeric fields of a `BMPFileHeader`. -/
def BMPFileHeader.WF (h : BMPFileHeader) : Prop :=
  h.file_type < 2 ^ 16 ∧ h.file_size < 2 ^ 32 ∧ h.reserved1 < 2 ^ 16 ∧
    h.reserved2 < 2 ^ 16 ∧ h.offset_data < 2 ^ 32

/-- Well-formedness of the numeric fields of a `BMPInfoHeader`. -/
def BMPInfoHeader.WF (h : BMPInfoHeader) : Prop :=
  h.size < 2 ^ 32 ∧
    -2147483648 ≤ h.width ∧ h.width < 2147483648 ∧
    -2147483648 ≤ h.height ∧ h.height < 2147483648 ∧
    h.planes < 2 ^ 16 ∧ h.bit_count < 2 ^ 16 ∧ h.compression < 2 ^ 32 ∧
    h.size_image < 2 ^ 32 ∧
    -2147483648 ≤ h.x_pixels_per_meter ∧ h.x_pixels_per_meter < 2147483648 ∧
    -2147483648 ≤ h.y_pixels_per_meter ∧ h.y_pixels_per_meter < 2147483648 ∧
    h.colors_used < 2 ^ 32 ∧ h.colors_important < 2 ^ 32

/-- Well-formedness of a `BMPColorHeader` (for wire round-trips). -/
def BMPColorHeader.WF (h : BMPColorHeader) : Prop :=
  h.red_mask < 2 ^ 32 ∧ h.green_mask < 2 ^ 32 ∧ h.blue_mask < 2 ^ 32 ∧
    h.alpha_mask < 2 ^ 32 ∧ h.color_space_type < 2 ^ 32 ∧ h.unused.length = 64

theorem parse_serFileHeader {h : BMPFileHeader} (hwf : h.WF) (rest : List Nat) :
    parseFileHeader (serFileHeader h ++ rest) = h := by
  obtain ⟨h1, h2, h3, h4, h5⟩ := hwf
  simp only [parseFileHeader, serFileHeader, List.append_assoc]
  have e2 : (2:Nat) ^ 16 = 256 ^ 2 := by norm_num
  have e4 : (2:Nat) ^ 32 = 256 ^ 4 := by norm_num
  rw [e2] at h1 h3 h4
  rw [e4] at h2 h5
  simp [sliceAt_append_skip, sliceAt_exact, encLE_length]
  rw [leNat_encLE h1, leNat_encLE h2, leNat_encLE h3, leNat_encLE h4, leNat_encLE h5]

theorem parse_serInfoHeader {h : BMPInfoHeader} (hwf : h.WF) (rest : List Nat) :
    parseInfoHeader (serInfoHeader h ++ rest) = h := by
  obtain ⟨h1, h2a, h2b, h3a, h3b, h4, h5, h6, h7, h8a, h8b, h9a, h9b, h10, h11⟩ := hwf
  simp only [parseInfoHeader, serInfoHeader, List.append_assoc]
  have e2 : (2:Nat) ^ 16 = 256 ^ 2 := by norm_num
  have e4 : (2:Nat) ^ 32 = 256 ^ 4 := by norm_num
  rw [e2] at h4 h5
  rw [e4] at h1 h6 h7 h10 h11
  simp [sliceAt_append_skip, sliceAt_exact, encLE_length, encLE32i_length,
    decI32_encLE32i, h2a, h2b, h3a, h3b, h8a, h8b, h9a, h9b]
  rw [leNat_encLE h1, leNat_encLE h4, leNat_encLE h5, leNat_encLE h6, leNat_encLE h7,
    leNat_encLE h10, leNat_encLE h11]

theorem parse_serColorHeader {h : BMPColorHeader} (hwf : h.WF) (rest : List Nat) :
    parseColorHeader (serColorHeader h ++ rest) = h := by
  obtain ⟨h1, h2, h3, h4, h5, h6⟩ := hwf
  simp only [parseColorHeader, serColorHeader, List.append_assoc]
  have e4 : (2:Nat) ^ 32 = 256 ^ 4 := by norm_num
  rw [e4] at h1 h2 h3 h4 h5
  simp [sliceAt_append_skip, sliceAt_exact, encLE_length, h6]
  rw [leNat_encLE h1, leNat_encLE h2, leNat_encLE h3, leNat_encLE h4, leNat_encLE h5,
    List.take_of_length_le (le_of_eq h6)]

/-! ## Input stream model (`std::istream`) -/

/-- An input byte stream: contents, read position, fail/eof state. -/
structure IStream where
  bytes : List Nat
  pos : Nat
  fail : Bool
deriving DecidableEq, Repr

/-- `istream::read(dst, n)`: on a good stream, extract up to `n` bytes from the
current position; a short extraction sets the fail state.  On a failed stream,
extract nothing. -/
def sread (s : IStream) (n : Nat) : List Nat × IStream :=
  if s.fail then ([], s)
  else
    let ext := sliceAt s.bytes s.pos n
    (ext, { s with pos := s.pos + ext.length, fail := decide (ext.length < n) })

/-- `istream::seekg(off, in.beg)`: reposition a good stream; a failed stream
stays failed and does not move. -/
def sseek (s : IStream) (off : Nat) : IStream :=
  if s.fail then s else { s with pos := off }

/-- Effect of `istream::read` into a packed struct: the first `got.length`
bytes of the struct's memory are overwritten, the rest keep their old value. -/
def patchBytes (old got : List Nat) : List Nat := got ++ old.drop got.length

/-- `std::vector<uint8_t>::resize n`: keep the first `n` bytes, value-initialize
(zero) any newly added elements. -/
def resizeTo (d : List Nat) (n : Nat) : List Nat :=
  d.take n ++ List.replicate (n - d.length) 0

/-- In-bounds `memcpy` of `bs` into buffer `d` at offset `p` (out-of-allocation
bytes are undefined behavior in C++; `List.set` ignores them). -/
def writeAt : List Nat → Nat → List Nat → List Nat
  | d, _, [] => d
  | d, p, x :: xs => writeAt (d.set p x) (p + 1) xs

/-! ## `Bitmap::make_stride_aligned` (`bitmap.cpp:165-173`) -/

/-- Termination measure decrease for `make_stride_aligned`'s while-loop. -/
theorem msa_measure_lt {s a : Nat} (h0 : a ≠ 0) (hm : s % a ≠ 0) :
    (a - (s + 1) % a) % a < (a - s % a) % a := by
  have ha2 : 2 ≤ a := by
    by_contra hlt
    push_neg at hlt
    interval_cases a
    · exact h0 rfl
    · exact hm (Nat.mod_one s)
  have hr1 : 0 < s % a := Nat.pos_of_ne_zero hm
  have hra : s % a < a := Nat.mod_lt _ (by omega)
  have hstep : (s + 1) % a = (s % a + 1) % a := by
    conv_lhs => rw [Nat.add_mod]
    rw [Nat.mod_eq_of_lt (show (1:Nat) < a by omega)]
  rcases Nat.lt_or_ge (s % a + 1) a with hc | hc
  · rw [hstep, Nat.mod_eq_of_lt hc,
      Nat.mod_eq_of_lt (show a - (s % a + 1) < a by omega),
      Nat.mod_eq_of_lt (show a - s % a < a by omega)]
    omega
  · have heq : s % a + 1 = a := by omega
    rw [hstep, heq, Nat.mod_self, Nat.sub_zero, Nat.mod_self,
      Nat.mod_eq_of_lt (show a - s % a < a by omega)]
    omega

/-- Increment `new_stride` until it is divisible by `align_stride`.
`align_stride = 0` would loop forever in C++; the source only ever passes 4. -/
def make_stride_aligned (row_stride align_stride : Nat) : Nat :=
  if h0 : align_stride = 0 then row_stride
  else if hm : row_stride % align_stride = 0 then row_stride
  else make_stride_aligned (row_stride + 1) align_stride
termination_by (align_stride - row_stride % align_stride) % align_stride
decreasing_by
  exact msa_measure_lt h0 hm

theorem msa_done {s : Nat} (h : s % 4 = 0) : make_stride_aligned s 4 = s := by
  conv_lhs => rw [make_stride_aligned]
  simp [h]

theorem msa_step {s : Nat} (h : s % 4 ≠ 0) :
    make_stride_aligned s 4 = make_stride_aligned (s + 1) 4 := by
  conv_lhs => rw [make_stride_aligned]
  simp [h]

/-- Closed form of `make_stride_aligned _ 4`: round up to the next multiple of 4. -/
theorem msa_four (s : Nat) : make_stride_aligned s 4 = s + (4 - s % 4) % 4 := by
  by_cases h0 : s % 4 = 0
  · rw [msa_done h0]
    omega
  · by_cases h1 : s % 4 = 1
    · have e0 : (s + 3) % 4 = 0 := by omega
      rw [msa_step h0, msa_step (show (s + 1) % 4 ≠ 0 by omega),
        msa_step (show (s + 2) % 4 ≠ 0 by omega), msa_done e0]
      omega
    · by_cases h2 : s % 4 = 2
      · have e0 : (s + 2) % 4 = 0 := by omega
        rw [msa_step h0, msa_step (show (s + 1) % 4 ≠ 0 by omega), msa_done e0]
        omega
      · have h3 : s % 4 = 3 := by omega
        have e0 : (s + 1) % 4 = 0 := by omega
        rw [msa_step h0, msa_done e0]
        omega

/-! ## `operator>>` — BMP decode (`bitmap.cpp:14-90`) -/

/-- Outcome of `operator>>(std::istream&, Bitmap&)`.

* `ok s b` — the operator returned normally (`return in`); `s` is the stream
  state (it may carry a fail flag from a short pixel read, which the source
  never checks) and `b` the state of the caller's `Bitmap`.
* `caught b` — a `BitmapException` was thrown and swallowed by the
  `catch (BitmapException ex)` block at the bottom of `operator>>`: the error
  is printed, nothing is rethrown, and the caller's `Bitmap` is left in the
  half-populated state `b`.
* `thrown msg b` — a `std::runtime_error` escaped `operator>>` (the catch
  handles only `BitmapException`); `b` is the caller's `Bitmap` at that point. -/
inductive DecodeResult where
  | ok (s : IStream) (b : Bitmap)
  | caught (b : Bitmap)
  | thrown (msg : String) (b : Bitmap)
deriving DecidableEq, Repr

/-- Steps of `operator>>` from `in.seekg(...)` (line 43) to the end:
header normalization, buffer allocation and pixel reads. -/
def readPixelData (b : Bitmap) (s : IStream) : DecodeResult :=
  -- Jump to the pixel data location
  let s1 := sseek s b.file_header.offset_data
  -- Adjust the header fields for output:
  -- sizeof(BMPInfoHeader) = 40, sizeof(BMPColorHeader) = 84, sizeof(BMPFileHeader) = 14
  let b1 :=
    if b.bmp_info_header.bit_count = 32 then
      { b with bmp_info_header.size := 124, file_header.offset_data := 138 }
    else
      { b with bmp_info_header.size := 40, file_header.offset_data := 54 }
  let b2 := { b1 with file_header.file_size := b1.file_header.offset_data }
  -- b.data.resize(width * 3 * 3 * height * bit_count / 8) — `int` arithmetic
  -- (signed overflow would be UB; a negative product passed to resize is UB,
  -- modeled by `Int.toNat`)
  let dataLen := ((b2.bmp_info_header.width * 3 * 3 * b2.bmp_info_header.height *
      (b2.bmp_info_header.bit_count : Int)).tdiv 8).toNat
  let b3 := { b2 with data := resizeTo b2.data dataLen }
  if b3.bmp_info_header.width.tmod 4 = 0 then
    let r := sread s1 b3.data.length
    let fs := (b3.file_header.file_size + b3.data.length) % 4294967296
    .ok r.2 { b3 with data := writeAt b3.data 0 r.1, file_header.file_size := fs }
  else
    let rs := ((b3.bmp_info_header.width * (b3.bmp_info_header.bit_count : Int)).tdiv 8).toNat
    let b4 := { b3 with row_stride := rs }
    let ns := make_stride_aligned rs 4
    let padLen := ns - rs
    let st := (List.range b4.bmp_info_header.height.toNat).foldl
      (fun (acc : List Nat × IStream) y =>
        let r1 := sread acc.2 rs
        let d := writeAt acc.1 (rs * y) r1.1
        let r2 := sread r1.2 padLen
        (d, r2.2))
      (b4.data, s1)
    let fs := (b4.file_header.file_size + st.1.length +
        b4.bmp_info_header.height.toNat * padLen) % 4294967296
    .ok st.2 { b4 with data := st.1, file_header.file_size := fs }

/-- `operator>>(std::istream&, Bitmap&)` (`bitmap.cpp:14-90`), reading from a
freshly opened stream over `input` into the caller's bitmap `b0`. -/
def readBitmap (b0 : Bitmap) (input : List Nat) : DecodeResult :=
  let s : IStream := { bytes := input, pos := 0, fail := false }
  -- `if (in)`: a freshly constructed stream is good, so the else branch
  -- (`throw std::runtime_error("Unable to open the input image file.")`)
  -- is not taken.
  let r1 := sread s 14
  let b1 := { b0 with
    file_header := parseFileHeader (patchBytes (serFileHeader b0.file_header) r1.1) }
  if b1.file_header.file_type ≠ 0x4D42 then
    .thrown "Error! Not a correct file format" b1
  else
    let r2 := sread r1.2 40
    let b2 := { b1 with
      bmp_info_header := parseInfoHeader (patchBytes (serInfoHeader b1.bmp_info_header) r2.1) }
    let b3 := { b2 with imageType := b2.bmp_info_header.bit_count / 8 }
    if b3.bmp_info_header.bit_count = 32 then
      -- Check if the file has bit mask color information:
      -- sizeof(BMPInfoHeader) + sizeof(BMPColorHeader) = 40 + 84 = 124
      if 124 ≤ b3.bmp_info_header.size then
        let rc := sread r2.2 84
        let b4 := { b3 with
          bmp_color_header := parseColorHeader (patchBytes (serColorHeader b3.bmp_color_header) rc.1) }
        readPixelData b4 rc.2
      else
        -- throw BitmapException("Error! The file does not contain bit mask information\n", 74)
        -- — caught and swallowed at the bottom of operator>>
        .caught b3
    else
      readPixelData b3 r2.2

/-! ## `operator<<` — BMP encode (`bitmap.cpp:102-140`) -/

/-- `Bitmap::write_headers` (`bitmap.cpp:180-188`). -/
def write_headers (b : Bitmap) : List Nat :=
  serFileHeader b.file_header ++ serInfoHeader b.bmp_info_header ++
    (if b.bmp_info_header.bit_count = 32 then serColorHeader b.bmp_color_header else [])

/-- `Bitmap::write_headers_and_data` (`bitmap.cpp:195-199`). -/
def write_headers_and_data (b : Bitmap) : List Nat := write_headers b ++ b.data

/-- Outcome of `operator<<(std::ostream&, Bitmap&)`: either the bytes written
to the stream, or a `std::runtime_error` escaping the operator. -/
inductive EncodeResult where
  | ok (bytes : List Nat)
  | thrown (msg : String)
deriving DecidableEq, Repr

/-- `operator<<(std::ostream&, Bitmap&)` (`bitmap.cpp:102-140`), on a good
output stream. -/
def writeBitmap (b : Bitmap) : EncodeResult :=
  if b.bmp_info_header.bit_count = 32 then
    .ok (write_headers_and_data b)
  else if b.bmp_info_header.bit_count = 24 then
    if b.bmp_info_header.width.tmod 4 = 0 then
      .ok (write_headers_and_data b)
    else
      let ns := make_stride_aligned b.row_stride 4
      let padLen := ns - b.row_stride
      .ok (write_headers b ++
        ((List.range b.bmp_info_header.height.toNat).map
          (fun y => sliceAt b.data (b.row_stride * y) b.row_stride ++
            List.replicate padLen 0)).flatten)
  else
    .thrown "The program can treat only 24 or 32 bits per pixel BMP files"

/-! ## Raw-pointer buffer access helpers -/

/-- Read a buffer byte at a (possibly negative) pointer offset.  Reads outside
the allocation are UB in C++; modeled as 0. -/
def getByte (d : List Nat) (i : Int) : Nat :=
  if 0 ≤ i then d.getD i.toNat 0 else 0

/-- Write a buffer byte at a (possibly negative) pointer offset.  Writes
outside the allocation are UB in C++; modeled as no-ops (`List.set` already
ignores indices past the end). -/
def setByte (d : List Nat) (i : Int) (v : Nat) : List Nat :=
  if 0 ≤ i then d.set i.toNat v else d

/-- Pixel coordinates `(y, x)` visited by `for (y = 0; y < h; ++y) for (x = 0; x < w; ++x)`,
in iteration order. -/
def scanList (h w : Nat) : List (Nat × Nat) :=
  (List.range h).flatMap (fun y => (List.range w).map (fun x => (y, x)))

/-- Iteration count of `for (i = lo; i < hi; i += step)` with an `int` bound. -/
def stepCount (lo : Nat) (hi : Int) (step : Nat) : Nat :=
  (hi.toNat - lo + step - 1) / step

/-! ## `nearesetNumber` and `cellShade` (`bitmap.cpp:206-257`) -/

/-- `nearesetNumber` (`bitmap.cpp:206-222`): scan `val[3] = {0, 128, 255}`
keeping the first index of strictly smaller distance (`min` starts at 255,
`minIndex` at 0). -/
def nearesetNumber (inValue : Nat) : Nat :=
  let val : List Nat := [0, 128, 255]
  let r := (List.range 3).foldl
    (fun (acc : Nat × Nat) i =>
      let vi := val.getD i 0
      let curMin := if vi < inValue then inValue - vi else vi - inValue
      if curMin < acc.1 then (curMin, i) else acc)
    (255, 0)
  val.getD r.2 0

/-- Body of `cellShade`'s inner loops for one pixel `(y, x)`: each of the
`imageType` channels is replaced by its `nearesetNumber`. -/
def cellShadePixel (stride bpp : Nat) (d : List Nat) (yx : Nat × Nat) : List Nat :=
  let base := stride * yx.1 + yx.2 * bpp
  (List.range bpp).foldl
    (fun d ch => d.set (base + ch) (nearesetNumber (d.getD (base + ch) 0))) d

/-- `cellShade` (`bitmap.cpp:231-257`).  The `if (!row)` null check can never
fire (the row pointer is `&data[0] + stride*y`), so the catch block is dead. -/
def cellShade (b : Bitmap) : Bitmap :=
  let data' :=
    (scanList b.bmp_info_header.height.toNat b.bmp_info_header.width.toNat).foldl
      (cellShadePixel b.row_stride b.imageType) b.data
  { b with data := data' }

/-! ## `grayscale` (`bitmap.cpp:262-285`) -/

/-- Body of `grayscale` for one pixel: `gray` is a `uint16_t` holding
`sum / imageType` (int division; division by `imageType = 0` would be UB,
`Nat` division by zero is 0); stores truncate to `uint8_t`. -/
def grayscalePixel (stride bpp : Nat) (d : List Nat) (yx : Nat × Nat) : List Nat :=
  let base := stride * yx.1 + yx.2 * bpp
  let p0 := d.getD (base + 0) 0
  let p1 := d.getD (base + 1) 0
  let p2 := d.getD (base + 2) 0
  if bpp = 3 then
    let gray := ((p0 + p1 + p2) / 3) % 65536
    ((d.set (base + 0) (gray % 256)).set (base + 1) (gray % 256)).set (base + 2) (gray % 256)
  else
    let p3 := d.getD (base + 3) 0
    let gray := ((p0 + p1 + p2 + p3) / bpp) % 65536
    -- pixel[3] = gray; then pixel[0] = pixel[1] = pixel[2] = gray
    (((d.set (base + 3) (gray % 256)).set (base + 0) (gray % 256)).set
      (base + 1) (gray % 256)).set (base + 2) (gray % 256)

/-- `grayscale` (`bitmap.cpp:262-285`). -/
def grayscale (b : Bitmap) : Bitmap :=
  let data' :=
    (scanList b.bmp_info_header.height.toNat b.bmp_info_header.width.toNat).foldl
      (grayscalePixel b.row_stride b.imageType) b.data
  { b with data := data' }

/-! ## `blur` (`bitmap.cpp:345-388`) -/

/-- The 5×5 Gaussian kernel `filter` (`bitmap.cpp:348-352`). -/
def blurFilter : List (List Nat) :=
  [[1, 4, 6, 4, 1],
   [4, 16, 24, 16, 4],
   [6, 24, 36, 24, 6],
   [4, 16, 24, 16, 4],
   [1, 4, 6, 4, 1]]

/-- `int16_t offset[5]` (`bitmap.cpp:354`). -/
def blurOffset : List Int := [-2, -1, 0, 1, 2]

/-- Weighted-sum accumulator for one channel of one pixel, iterating `xOff`
outer / `yOff` inner exactly like the source loops.  `filterValue[ch]` is a
`uint16_t`, so each `+=` wraps at 65536. -/
def blurAcc (stride bpp : Nat) (d : List Nat) (y x ch : Nat) : Nat :=
  (List.range 5).foldl
    (fun acc xOff =>
      (List.range 5).foldl
        (fun acc yOff =>
          -- uint32_t yOffset / xOffset; y ≥ 2 and x ≥ 2 keep them nonnegative
          let yy := ((y : Int) + blurOffset.getD yOff 0).toNat
          let xx := ((x : Int) + blurOffset.getD xOff 0).toNat
          (acc + d.getD (stride * yy + xx * bpp + ch) 0 *
            (blurFilter.getD yOff []).getD xOff 0) % 65536)
        acc)
    0

/-- Body of `blur` for one interior pixel `(y, x)`: all `filterValue[ch]`
accumulators are filled from the buffer first (`filterValue[3]` only when
`imageType == 4`), then `filterValue[ch] = filterValue[ch] / 255.0` (a double
division truncated back into the `uint16_t`; for values below 65536 this is
exactly `Nat` division by 255) and `pixel[ch] = filterValue[ch]` (a `uint8_t`
store, mod 256) for each `ch < imageType`. -/
def blurPixel (stride bpp : Nat) (d : List Nat) (y x : Nat) : List Nat :=
  let base := stride * y + x * bpp
  let fvs : List Nat :=
    [blurAcc stride bpp d y x 0, blurAcc stride bpp d y x 1, blurAcc stride bpp d y x 2,
      if bpp = 4 then blurAcc stride bpp d y x 3 else 0]
  (List.range bpp).foldl
    (fun d ch => d.set (base + ch) (fvs.getD ch 0 / 255 % 256)) d

/-- `blur` (`bitmap.cpp:345-388`): in-place over interior pixels
`2 ≤ y < height - 3`, `2 ≤ x < width - 3`, in scan order.  The neighbour reads
come from the same live buffer being written. -/
def blur (b : Bitmap) : Bitmap :=
  let yc := stepCount 2 (b.bmp_info_header.height - 3) 1
  let xc := stepCount 2 (b.bmp_info_header.width - 3) 1
  let data' :=
    (scanList yc xc).foldl
      (fun d ij => blurPixel b.row_stride b.imageType d (2 + ij.1) (2 + ij.2)) b.data
  { b with data := data' }

/-! ## `flipv` and `fliph` (`bitmap.cpp:414-465`) -/

/-- One pixel copy of a flip row pass: copy the `bpp` channels of source
pixel byte-offset `srcOff` to destination byte-offset `dstOff` (channels
0, 1, 2 always, channel 3 when `imageType = 4`, exactly like the source). -/
def copyPixel (orig : List Nat) (bpp : Nat) (d : List Nat) (dstOff srcOff : Nat) : List Nat :=
  let d := ((d.set (dstOff + 0) (orig.getD (srcOff + 0) 0)).set
    (dstOff + 1) (orig.getD (srcOff + 1) 0)).set
    (dstOff + 2) (orig.getD (srcOff + 2) 0)
  if bpp = 4 then d.set (dstOff + 3) (orig.getD (srcOff + 3) 0) else d

/-- One iteration of `flipv`'s row loop: copy row `y` of the snapshot into row
`height - 1 - y` of the live buffer.  The column loop
`for (x = 0; x < width*imageType; x += imageType)` runs `width` times when
`imageType ≠ 0` and zero times otherwise. -/
def flipvRow (orig : List Nat) (stride w bpp h : Nat) (d : List Nat) (y : Nat) : List Nat :=
  (List.range (if bpp = 0 then 0 else w)).foldl
    (fun d k => copyPixel orig bpp d (stride * (h - 1 - y) + k * bpp) (stride * y + k * bpp))
    d

/-- `flipv` (`bitmap.cpp:414-436`): works from the snapshot `Bitmap original = b`. -/
def flipv (b : Bitmap) : Bitmap :=
  let data' :=
    (List.range b.bmp_info_header.height.toNat).foldl
      (flipvRow b.data b.row_stride b.bmp_info_header.width.toNat b.imageType
        b.bmp_info_header.height.toNat)
      b.data
  { b with data := data' }

/-- One iteration of `fliph`'s row loop: for each destination column byte
offset `x = k*imageType`, copy from `offset = (width-1)*imageType - x` of the
same row of the snapshot. -/
def fliphRow (orig : List Nat) (stride w bpp : Nat) (d : List Nat) (y : Nat) : List Nat :=
  (List.range (if bpp = 0 then 0 else w)).foldl
    (fun d k => copyPixel orig bpp d (stride * y + k * bpp)
      (stride * y + ((w - 1) * bpp - k * bpp)))
    d

/-- `fliph` (`bitmap.cpp:441-465`): works from the snapshot `Bitmap original = b`. -/
def fliph (b : Bitmap) : Bitmap :=
  let data' :=
    (List.range b.bmp_info_header.height.toNat).foldl
      (fliphRow b.data b.row_stride b.bmp_info_header.width.toNat b.imageType)
      b.data
  { b with data := data' }

/-! ## `pixelate` (`bitmap.cpp:290-340`) -/

/-- `int16_t offset[16]` (`bitmap.cpp:293`). -/
def pixelateOffset : List Int := [-8, -7, -6, -5, -4, -3, -2, -1, 0, 1, 2, 3, 4, 5, 6, 7]

/-- `pixelate` (`bitmap.cpp:290-340`): blocks anchored at `y, x` multiples of 8
in `[8, height-8) × [8, width-8)`; averages a 16×16 neighbourhood of the
snapshot `originalImage` into `uint32_t value[4]`, then writes the averages
back over a 16×**17** footprint — the write loop `for (oX = 0; oX < 17; ++oX)`
reads `offset[16]`, one past the end of the 16-entry table.  That
out-of-bounds stack read yields an unspecified `int16_t`, modeled by the
parameter `junk`. -/
def pixelate (junk : Int) (b : Bitmap) : Bitmap :=
  let stride := b.row_stride
  let bpp := b.imageType
  let yCnt := stepCount 8 (b.bmp_info_header.height - 8) 8
  let xCnt := stepCount 8 (b.bmp_info_header.width - 8) 8
  let orig := b.data  -- Bitmap originalImage = b
  let data' :=
    (List.range yCnt).foldl
        (fun d ky =>
          let y : Int := 8 + 8 * (ky : Int)
          (List.range xCnt).foldl
            (fun d kx =>
              let x : Int := 8 + 8 * (kx : Int)
              -- uint32_t value[4] accumulation over the snapshot
              let value : Nat → Nat := fun ch =>
                ((List.range 16).foldl
                  (fun acc oY =>
                    (List.range 16).foldl
                      (fun acc oX =>
                        (acc + getByte orig ((stride : Int) * (y + pixelateOffset.getD oY 0) +
                          (x + pixelateOffset.getD oX 0) * (bpp : Int) + (ch : Int))) %
                          4294967296)
                      acc)
                  0) / 256
              let v0 := value 0
              let v1 := value 1
              let v2 := value 2
              let v3 := if bpp = 4 then value 3 else 0
              -- write-back loop, oX ∈ [0, 17): offset.getD 16 junk is the OOB read
              (List.range 16).foldl
                (fun d oY =>
                  (List.range 17).foldl
                    (fun d oX =>
                      let rowBase := (stride : Int) * (y + pixelateOffset.getD oY 0)
                      let pix := rowBase + (x + pixelateOffset.getD oX junk) * (bpp : Int)
                      let d := setByte d (pix + 0) (v0 % 256)
                      let d := setByte d (pix + 1) (v1 % 256)
                      let d := setByte d (pix + 2) (v2 % 256)
                      if bpp = 4 then setByte d (pix + 3) (v3 % 256) else d)
                    d)
                d)
            d)
      b.data
  { b with data := data' }

/-! ## `scaleUp` and `scaleDown` (`bitmap.cpp:484-589`) -/

/-- `scaleUp` (`bitmap.cpp:484-530`): doubles the dimensions
(`width = 2*old; width += width % 4`), then duplicates source pixels into 2×2
blocks.  The inner column loop runs over the **new** width, so it reads up to
`2*old_width` pixels from each source row of the snapshot.  The destination
row counter `r` equals `2*y + rCount`; the trailing `while (c < width)`
zero-fill never executes because `c` ends at `2*width`. -/
def scaleUp (b : Bitmap) : Bitmap :=
  let origStride := b.row_stride
  let origH := b.bmp_info_header.height.toNat
  let bpp := b.imageType
  let w2 := b.bmp_info_header.width * 2
  let w3 := w2 + w2.tmod 4
  let rs := ((w3 * (b.bmp_info_header.bit_count : Int)).tdiv 8).toNat
  let data' :=
    (List.range origH).foldl
      (fun d y =>
        (List.range 2).foldl
          (fun d rCount =>
            let r := 2 * y + rCount
            let d :=
              (List.range w3.toNat).foldl
                (fun d x =>
                  (List.range 2).foldl
                    (fun d cCount =>
                      let c := 2 * x + cCount
                      let src := origStride * y + x * bpp
                      let dst := rs * r + c * bpp
                      let d := ((d.set (dst + 0) (b.data.getD (src + 0) 0)).set
                        (dst + 1) (b.data.getD (src + 1) 0)).set
                        (dst + 2) (b.data.getD (src + 2) 0)
                      if bpp = 4 then d.set (dst + 3) (b.data.getD (src + 3) 0) else d)
                    d)
                d
            -- while (c < width): c = 2*width here, so no iterations
            (List.range (w3.toNat - 2 * w3.toNat)).foldl
              (fun d i =>
                let c := 2 * w3.toNat + i
                let dst := rs * r + c * bpp
                let d := ((d.set (dst + 0) 0).set (dst + 1) 0).set (dst + 2) 0
                if bpp = 4 then d.set (dst + 3) 0 else d)
              d)
          d)
      b.data
  { b with bmp_info_header.width := w3, bmp_info_header.height := b.bmp_info_header.height * 2,
           row_stride := rs, data := data' }

/-- `scaleDown` (`bitmap.cpp:535-589`): halves the dimensions
(`width = old/2; width += width % 4`), then samples the snapshot at odd rows
and odd columns.  Writing stops early when the column counter `c` reaches
`row_stride` (the source compares the pixel counter against the byte stride);
remaining destination columns up to the new width are zero-filled.  The
destination row counter `r` equals `y / 2` for the processed odd rows. -/
def scaleDown (b : Bitmap) : Bitmap :=
  let origStride := b.row_stride
  let origH := b.bmp_info_header.height.toNat
  let origW := b.bmp_info_header.width.toNat
  let bpp := b.imageType
  let wHalf := b.bmp_info_header.width.tdiv 2
  let w3 := wHalf + wHalf.tmod 4
  let rs := ((w3 * (b.bmp_info_header.bit_count : Int)).tdiv 8).toNat
  let data' :=
    (List.range origH).foldl
      (fun d y =>
        if y % 2 = 0 then d  -- continue
        else
          let r := y / 2
          let st :=
            (List.range origW).foldl
              (fun (acc : Nat × List Nat) x =>
                if rs ≤ acc.1 then acc  -- break: c >= b.row_stride
                else if x % 2 = 0 then acc  -- continue
                else
                  let c := acc.1
                  let src := origStride * y + x * bpp
                  let dst := rs * r + c * bpp
                  let d := acc.2
                  let d := ((d.set (dst + 0) (b.data.getD (src + 0) 0)).set
                    (dst + 1) (b.data.getD (src + 1) 0)).set
                    (dst + 2) (b.data.getD (src + 2) 0)
                  let d := if bpp = 4 then d.set (dst + 3) (b.data.getD (src + 3) 0) else d
                  (c + 1, d))
              (0, d)
          -- while (c < b.bmp_info_header.width): zero-fill up to the new width
          (List.range (w3.toNat - st.1)).foldl
            (fun d i =>
              let c := st.1 + i
              let dst := rs * r + c * bpp
              let d := ((d.set (dst + 0) 0).set (dst + 1) 0).set (dst + 2) 0
              if bpp = 4 then d.set (dst + 3) 0 else d)
            st.2)
      b.data
  { b with bmp_info_header.width := w3,
           bmp_info_header.height := b.bmp_info_header.height.tdiv 2,
           row_stride := rs, data := data' }

/-! ## Generic frame lemmas for buffer-update folds

Every filter is a `List.foldl` of a per-item buffer update.  These lemmas
capture: (a) such folds preserve the buffer length; (b) a byte outside every
item's write window is untouched; (c) the value of a byte inside exactly one
item's write window is produced by that item's update, applied to the buffer
state reached just before it. -/

section FoldFrame

variable {α : Type}

theorem foldl_length_eq (P : List Nat → α → List Nat) (items : List α)
    (hP : ∀ d a, a ∈ items → (P d a).length = d.length) (d : List Nat) :
    (items.foldl P d).length = d.length := by
  induction items generalizing d with
  | nil => rfl
  | cons a t ih =>
    rw [List.foldl_cons, ih (fun d b hb => hP d b (List.mem_cons_of_mem a hb)),
      hP d a (List.mem_cons_self a t)]

theorem foldl_getD_frame (P : List Nat → α → List Nat) (items : List α) (d : List Nat)
    (j : Nat) (base k : α → Nat)
    (hP : ∀ d a, a ∈ items → ∀ i, (i < base a ∨ base a + k a ≤ i) →
      (P d a).getD i 0 = d.getD i 0)
    (hj : ∀ a ∈ items, j < base a ∨ base a + k a ≤ j) :
    (items.foldl P d).getD j 0 = d.getD j 0 := by
  induction items generalizing d with
  | nil => rfl
  | cons a t ih =>
    rw [List.foldl_cons,
      ih (P d a) (fun d b hb i hi => hP d b (List.mem_cons_of_mem a hb) i hi)
        (fun b hb => hj b (List.mem_cons_of_mem a hb)),
      hP d a (List.mem_cons_self a t) j (hj a (List.mem_cons_self a t))]

theorem foldl_getD_split (P : List Nat → α → List Nat) (pre post : List α) (a₀ : α)
    (d : List Nat) (j : Nat) (base k : α → Nat)
    (hP : ∀ d a, a ∈ post → ∀ i, (i < base a ∨ base a + k a ≤ i) →
      (P d a).getD i 0 = d.getD i 0)
    (hj : ∀ a ∈ post, j < base a ∨ base a + k a ≤ j) :
    ((pre ++ a₀ :: post).foldl P d).getD j 0 = (P (pre.foldl P d) a₀).getD j 0 := by
  rw [List.foldl_append, List.foldl_cons]
  exact foldl_getD_frame P post _ j base k hP hj

end FoldFrame

/-! ## Write-window and length facts for the filter bodies -/

@[simp] theorem setByte_length (d : List Nat) (i : Int) (v : Nat) :
    (setByte d i v).length = d.length := by
  unfold setByte
  split <;> simp

theorem cellShadePixel_length (stride bpp : Nat) (d : List Nat) (yx : Nat × Nat) :
    (cellShadePixel stride bpp d yx).length = d.length := by
  unfold cellShadePixel
  exact foldl_length_eq _ _ (fun d a _ => by simp) d

theorem grayscalePixel_length (stride bpp : Nat) (d : List Nat) (yx : Nat × Nat) :
    (grayscalePixel stride bpp d yx).length = d.length := by
  unfold grayscalePixel
  split <;> simp

theorem blurPixel_length (stride bpp : Nat) (d : List Nat) (y x : Nat) :
    (blurPixel stride bpp d y x).length = d.length := by
  unfold blurPixel
  exact foldl_length_eq _ _ (fun d a _ => by simp) d

@[simp] theorem copyPixel_length (orig : List Nat) (bpp : Nat) (d : List Nat)
    (dstOff srcOff : Nat) : (copyPixel orig bpp d dstOff srcOff).length = d.length := by
  unfold copyPixel
  split <;> simp

theorem flipvRow_length (orig : List Nat) (stride w bpp h : Nat) (d : List Nat) (y : Nat) :
    (flipvRow orig stride w bpp h d y).length = d.length := by
  unfold flipvRow
  exact foldl_length_eq _ _ (fun d a _ => copyPixel_length _ _ _ _ _) d

theorem fliphRow_length (orig : List Nat) (stride w bpp : Nat) (d : List Nat) (y : Nat) :
    (fliphRow orig stride w bpp d y).length = d.length := by
  unfold fliphRow
  exact foldl_length_eq _ _ (fun d a _ => copyPixel_length _ _ _ _ _) d

theorem cellShade_length (b : Bitmap) : (cellShade b).data.length = b.data.length := by
  unfold cellShade
  exact foldl_length_eq _ _ (fun d a _ => cellShadePixel_length _ _ d a) b.data

theorem grayscale_length (b : Bitmap) : (grayscale b).data.length = b.data.length := by
  unfold grayscale
  exact foldl_length_eq _ _ (fun d a _ => grayscalePixel_length _ _ d a) b.data

theorem blur_length (b : Bitmap) : (blur b).data.length = b.data.length := by
  unfold blur
  exact foldl_length_eq _ _ (fun d a _ => blurPixel_length _ _ d _ _) b.data

theorem flipv_length (b : Bitmap) : (flipv b).data.length = b.data.length := by
  unfold flipv
  exact foldl_length_eq _ _ (fun d a _ => flipvRow_length _ _ _ _ _ d a) b.data

theorem fliph_length (b : Bitmap) : (fliph b).data.length = b.data.length := by
  unfold fliph
  exact foldl_length_eq _ _ (fun d a _ => fliphRow_length _ _ _ _ d a) b.data

theorem pixelate_length (junk : Int) (b : Bitmap) :
    (pixelate junk b).data.length = b.data.length := by
  unfold pixelate
  refine foldl_length_eq _ _ (fun d ky _ => ?_) b.data
  refine foldl_length_eq _ _ (fun d kx _ => ?_) d
  refine foldl_length_eq _ _ (fun d oY _ => ?_) d
  refine foldl_length_eq _ _ (fun d oX _ => ?_) d
  split <;> simp

/-! ## `getD`/`set` and scan-order decomposition lemmas -/

theorem getD_set_ne (d : List Nat) (i j v : Nat) (h : i ≠ j) :
    (d.set i v).getD j 0 = d.getD j 0 := by
  simp [List.getD_eq_getElem?_getD, List.getElem?_set_ne h]

theorem getD_set_self (d : List Nat) (i v : Nat) (h : i < d.length) :
    (d.set i v).getD i 0 = v := by
  simp [List.getD_eq_getElem?_getD, List.getElem?_set_self h]

/-- Split `List.range n` at an interior point `y`. -/
theorem range_split {n y : Nat} (h : y < n) :
    List.range n = List.range y ++ y :: List.range' (y + 1) (n - y - 1) := by
  have h2 : List.range' y (n - y) = y :: List.range' (y + 1) (n - y - 1) := by
    conv_lhs => rw [show n - y = (n - y - 1) + 1 by omega]
    rw [List.range'_succ]
  rw [List.range_eq_range']
  conv_lhs => rw [← Nat.add_sub_cancel' (Nat.le_of_lt h), Nat.add_comm]
  rw [← List.range'_append_1 0 y (n - y), Nat.zero_add, h2, ← List.range_eq_range']

/-- Scan-order pixels strictly before `(y, x)`. -/
def scanBefore (w y x : Nat) : List (Nat × Nat) :=
  scanList y w ++ (List.range x).map (fun x' => (y, x'))

/-- Scan-order pixels strictly after `(y, x)`. -/
def scanAfter (h w y x : Nat) : List (Nat × Nat) :=
  (List.range' (x + 1) (w - x - 1)).map (fun x' => (y, x')) ++
    (List.range' (y + 1) (h - y - 1)).flatMap (fun y' => (List.range w).map (fun x' => (y', x')))

theorem scanList_decomp {h w y x : Nat} (hy : y < h) (hx : x < w) :
    scanList h w = scanBefore w y x ++ (y, x) :: scanAfter h w y x := by
  unfold scanList scanBefore scanAfter
  have hrow : (List.range w).map (fun x' => (y, x')) =
      (List.range x).map (fun x' => (y, x')) ++
        (y, x) :: (List.range' (x + 1) (w - x - 1)).map (fun x' => (y, x')) := by
    conv_lhs => rw [range_split hx]
    rw [List.map_append, List.map_cons]
  conv_lhs => rw [range_split hy]
  rw [List.flatMap_append, List.flatMap_cons, hrow]
  simp [scanList, List.append_assoc]

theorem mem_scanList {h w : Nat} {p : Nat × Nat} (hp : p ∈ scanList h w) :
    p.1 < h ∧ p.2 < w := by
  simp only [scanList, List.mem_flatMap, List.mem_map, List.mem_range] at hp
  obtain ⟨y', hy', x', hx', heq⟩ := hp
  subst heq
  exact ⟨hy', hx'⟩

theorem mem_scanBefore {w y x : Nat} {p : Nat × Nat} (hp : p ∈ scanBefore w y x) :
    (p.1 < y ∧ p.2 < w) ∨ (p.1 = y ∧ p.2 < x) := by
  simp only [scanBefore, List.mem_append, List.mem_map, List.mem_range] at hp
  rcases hp with hp | hp
  · exact Or.inl (mem_scanList hp)
  · obtain ⟨x', hx', heq⟩ := hp
    subst heq
    exact Or.inr ⟨rfl, hx'⟩

theorem mem_scanAfter {h w y x : Nat} {p : Nat × Nat} (hp : p ∈ scanAfter h w y x) :
    (p.1 = y ∧ x < p.2 ∧ p.2 < w) ∨ (y < p.1 ∧ p.1 < h ∧ p.2 < w) := by
  simp only [scanAfter, List.mem_append, List.mem_map, List.mem_flatMap,
    List.mem_range'_1, List.mem_range] at hp
  rcases hp with ⟨x', hx', heq⟩ | ⟨y', hy', x', hx', heq⟩
  · subst heq
    exact Or.inl ⟨rfl, by omega, by omega⟩
  · subst heq
    exact Or.inr ⟨by omega, by omega, hx'⟩

/-- Distinct in-range pixels have disjoint byte windows when the stride is at
least `width * bytes_per_pixel`. -/
theorem pixel_window_disjoint {stride bpp w y x y' x' ch : Nat}
    (hstride : w * bpp ≤ stride)
    (hx : x < w) (hx' : x' < w) (hch : ch < bpp)
    (hne : (y', x') ≠ (y, x)) :
    stride * y + x * bpp + ch < stride * y' + x' * bpp ∨
      stride * y' + x' * bpp + bpp ≤ stride * y + x * bpp + ch := by
  rcases Nat.lt_trichotomy y' y with hyy | hyy | hyy
  · -- y' < y: the whole row y' window sits below the target
    right
    have h1 : x' * bpp + bpp ≤ w * bpp := by
      have := Nat.mul_le_mul_right bpp (show x' + 1 ≤ w by omega)
      calc x' * bpp + bpp = (x' + 1) * bpp := by ring
        _ ≤ w * bpp := this
    have h2 : stride * y' + stride ≤ stride * y := by
      have := Nat.mul_le_mul_left stride (show y' + 1 ≤ y by omega)
      calc stride * y' + stride = stride * (y' + 1) := by ring
        _ ≤ stride * y := this
    omega
  · -- same row: compare columns
    subst hyy
    have hxx : x' ≠ x := fun hc => hne (by rw [hc])
    rcases Nat.lt_or_ge x' x with hlt | hge
    · right
      have h1 : x' * bpp + bpp ≤ x * bpp := by
        have := Nat.mul_le_mul_right bpp (show x' + 1 ≤ x by omega)
        calc x' * bpp + bpp = (x' + 1) * bpp := by ring
          _ ≤ x * bpp := this
      omega
    · left
      have hlt' : x < x' := by omega
      have h1 : x * bpp + bpp ≤ x' * bpp := by
        have := Nat.mul_le_mul_right bpp (show x + 1 ≤ x' by omega)
        calc x * bpp + bpp = (x + 1) * bpp := by ring
          _ ≤ x' * bpp := this
      omega
  · -- y < y': the target row window sits below row y'
    left
    have h1 : x * bpp + bpp ≤ w * bpp := by
      have := Nat.mul_le_mul_right bpp (show x + 1 ≤ w by omega)
      calc x * bpp + bpp = (x + 1) * bpp := by ring
        _ ≤ w * bpp := this
    have h2 : stride * y + stride ≤ stride * y' := by
      have := Nat.mul_le_mul_left stride (show y + 1 ≤ y' by omega)
      calc stride * y + stride = stride * (y + 1) := by ring
        _ ≤ stride * y' := this
    omega

/-! ## Concrete inputs used by claim theorems -/

/-- Info header of a `w × h` image at `bpp` bytes per pixel. -/
def mkInfo (w h bpp : Nat) : BMPInfoHeader :=
  { Bitmap.default.bmp_info_header with
      width := (w : Int), height := (h : Int), bit_count := bpp * 8 }

/-- A bitmap with the valid-layout contract (`row_stride = w * bpp`). -/
def mkBitmap (w h bpp : Nat) (d : List Nat) : Bitmap :=
  { Bitmap.default with
      row_stride := w * bpp, imageType := bpp, bmp_info_header := mkInfo w h bpp, data := d }

/-- File header of a 32bpp stream claiming DIB size 100 (< 124). -/
def fhC4 : BMPFileHeader :=
  { file_type := 0x4D42, file_size := 0, reserved1 := 0, reserved2 := 0, offset_data := 138 }

/-- Info header with `bit_count = 32` but `size = 100 < 124`. -/
def ihC4 : BMPInfoHeader :=
  { mkInfo 2 2 4 with size := 100, planes := 1 }

/-- A 32bpp stream whose DIB header size field (100) is smaller than
`sizeof(BMPInfoHeader) + sizeof(BMPColorHeader) = 124`. -/
def missingMaskStream : List Nat :=
  serFileHeader fhC4 ++ serInfoHeader ihC4 ++ List.replicate 100 0

/-- File header of a well-formed width-aligned 24bpp stream. -/
def fhC2 : BMPFileHeader :=
  { file_type := 0x4D42, file_size := 0, reserved1 := 0, reserved2 := 0, offset_data := 54 }

/-- Info header of a 4×1 24bpp image (width divisible by 4). -/
def ihC2 : BMPInfoHeader :=
  { mkInfo 4 1 3 with size := 40, planes := 1 }

/-- A well-formed 4×1 24bpp BMP stream: 54 header bytes + 12 pixel bytes. -/
def alignedStream : List Nat :=
  serFileHeader fhC2 ++ serInfoHeader ihC2 ++ List.replicate 12 7

/-- The bitmap of a successful decode, when there is one. -/
def decodedBitmap? : DecodeResult → Option Bitmap
  | .ok _ b => some b
  | _ => none

/-- 6×2 24bpp bitmap (width ≡ 2 mod 4) for the scale-dimension counterexample. -/
def bmpW6 : Bitmap := mkBitmap 6 2 3 (List.replicate 36 5)

/-- 6×6 24bpp all-white bitmap for the blur counterexample. -/
def bmpWhite6 : Bitmap := mkBitmap 6 6 3 (List.replicate 108 255)

/-- One 17-pixel row: columns 0–15 white, column 16 black. -/
def row17 : List Nat := List.replicate 48 255 ++ List.replicate 3 0

/-- 17×17 24bpp bitmap whose last column differs from the rest. -/
def bmp17 : Bitmap := mkBitmap 17 17 3 (List.replicate 17 row17).flatten

/-! ## Claim C4 — decode failure on a 32bpp stream without mask data -/

/-- C4: on a 32bpp stream whose declared DIB header size (here 100) is less
than `sizeof(BMPInfoHeader) + sizeof(BMPColorHeader) = 124`, `operator>>`
throws `BitmapException` — but the `catch (BitmapException)` block at the end
of `operator>>` swallows it (prints and returns), so **no error propagates to
the caller**, and the caller's `Bitmap` is left half-populated: the file and
info headers read from the stream (bit_count 32, the bad size 100, signature
0x4D42) and the derived `imageType = 4` are visible, with no pixel data.  This
contradicts the claim's "propagates to the caller" and "no partial Bitmap is
made available", and `operator>>`'s own doc comment "@throws BitmapException
if it's an invalid bitmap". -/
theorem c4_missing_mask_swallowed :
    readBitmap Bitmap.default missingMaskStream =
      .caught { Bitmap.default with file_header := fhC4, bmp_info_header := ihC4,
                                    imageType := 4 } ∧
    ihC4.bit_count = 32 ∧ ihC4.size = 100 ∧ fhC4.file_type = 0x4D42 := by
  constructor
  · decide
  · decide

/-! ## Claim C10 — in-place filters preserve all metadata -/

/-- C10: each in-place filter (cellShade, grayscale, pixelate, blur, flipv,
fliph) leaves the file header, info header, color header, `row_stride`,
`imageType`, and the byte length of `data` unchanged; only bytes inside the
data buffer may change. -/
theorem c10_filters_preserve_metadata (b : Bitmap) (junk : Int) :
    ((cellShade b).file_header = b.file_header ∧
      (cellShade b).bmp_info_header = b.bmp_info_header ∧
      (cellShade b).bmp_color_header = b.bmp_color_header ∧
      (cellShade b).row_stride = b.row_stride ∧
      (cellShade b).imageType = b.imageType ∧
      (cellShade b).data.length = b.data.length) ∧
    ((grayscale b).file_header = b.file_header ∧
      (grayscale b).bmp_info_header = b.bmp_info_header ∧
      (grayscale b).bmp_color_header = b.bmp_color_header ∧
      (grayscale b).row_stride = b.row_stride ∧
      (grayscale b).imageType = b.imageType ∧
      (grayscale b).data.length = b.data.length) ∧
    ((pixelate junk b).file_header = b.file_header ∧
      (pixelate junk b).bmp_info_header = b.bmp_info_header ∧
      (pixelate junk b).bmp_color_header = b.bmp_color_header ∧
      (pixelate junk b).row_stride = b.row_stride ∧
      (pixelate junk b).imageType = b.imageType ∧
      (pixelate junk b).data.length = b.data.length) ∧
    ((blur b).file_header = b.file_header ∧
      (blur b).bmp_info_header = b.bmp_info_header ∧
      (blur b).bmp_color_header = b.bmp_color_header ∧
      (blur b).row_stride = b.row_stride ∧
      (blur b).imageType = b.imageType ∧
      (blur b).data.length = b.data.length) ∧
    ((flipv b).file_header = b.file_header ∧
      (flipv b).bmp_info_header = b.bmp_info_header ∧
      (flipv b).bmp_color_header = b.bmp_color_header ∧
      (flipv b).row_stride = b.row_stride ∧
      (flipv b).imageType = b.imageType ∧
      (flipv b).data.length = b.data.length) ∧
    ((fliph b).file_header = b.file_header ∧
      (fliph b).bmp_info_header = b.bmp_info_header ∧
      (fliph b).bmp_color_header = b.bmp_color_header ∧
      (fliph b).row_stride = b.row_stride ∧
      (fliph b).imageType = b.imageType ∧
      (fliph b).data.length = b.data.length) :=
  ⟨⟨rfl, rfl, rfl, rfl, rfl, cellShade_length b⟩,
    ⟨rfl, rfl, rfl, rfl, rfl, grayscale_length b⟩,
    ⟨rfl, rfl, rfl, rfl, rfl, pixelate_length junk b⟩,
    ⟨rfl, rfl, rfl, rfl, rfl, blur_length b⟩,
    ⟨rfl, rfl, rfl, rfl, rfl, flipv_length b⟩,
    ⟨rfl, rfl, rfl, rfl, rfl, fliph_length b⟩⟩

/-! ## Claim C9 — scale-up/scale-down dimension round-trip -/

/-- C9 counterexample: for a width-6 bitmap, `scaleUp` gives width
`12 = 2*6 + (2*6) % 4`, and `scaleDown` then gives `12/2 + (12/2) % 4 = 8 ≠ 6`.
The height does round-trip. -/
theorem c9_scale_dims_counterexample :
    (scaleDown (scaleUp bmpW6)).bmp_info_header.width = 8 ∧
    bmpW6.bmp_info_header.width = 6 ∧
    (scaleDown (scaleUp bmpW6)).bmp_info_header.height = bmpW6.bmp_info_header.height := by
  refine ⟨rfl, rfl, rfl⟩

/-- C9 (amended): `scaleDown (scaleUp b)` reproduces the original width and
height exactly **when the width is divisible by 4**; the height always
round-trips (the claim as stated fails for widths ≢ 0 mod 4, e.g. width 6). -/
theorem c9_scale_dims_amended (b : Bitmap) (h4 : b.bmp_info_header.width.tmod 4 = 0) :
    (scaleDown (scaleUp b)).bmp_info_header.width = b.bmp_info_header.width ∧
    (scaleDown (scaleUp b)).bmp_info_header.height = b.bmp_info_header.height := by
  obtain ⟨k, hk⟩ := Int.dvd_of_tmod_eq_zero h4
  have hW : (scaleUp b).bmp_info_header.width = 8 * k := by
    show b.bmp_info_header.width * 2 + (b.bmp_info_header.width * 2).tmod 4 = 8 * k
    rw [hk, show (4 * k * 2) = 4 * (k * 2) by ring, Int.tmod_eq_zero_of_dvd ⟨k * 2, rfl⟩]
    ring
  constructor
  · have hshow : (scaleDown (scaleUp b)).bmp_info_header.width =
        (scaleUp b).bmp_info_header.width.tdiv 2 +
          ((scaleUp b).bmp_info_header.width.tdiv 2).tmod 4 := rfl
    rw [hshow, hW, show (8 : Int) * k = (4 * k) * 2 by ring,
      Int.mul_tdiv_cancel _ (by norm_num), Int.tmod_eq_zero_of_dvd ⟨k, rfl⟩, hk]
    ring
  · have hshow : (scaleDown (scaleUp b)).bmp_info_header.height =
        (scaleUp b).bmp_info_header.height.tdiv 2 := rfl
    have hH : (scaleUp b).bmp_info_header.height = b.bmp_info_header.height * 2 := rfl
    rw [hshow, hH, Int.mul_tdiv_cancel _ (by norm_num)]

/-- C9 witness input: the amended theorem applied at width 4. -/
def bmpW4 : Bitmap := mkBitmap 4 2 3 (List.replicate 24 5)

/-- Witness for the amended C9 theorem at a concrete width-4 bitmap. -/
theorem c9_scale_dims_amended_witness :
    bmpW4.bmp_info_header.width.tmod 4 = 0 ∧
      ((scaleDown (scaleUp bmpW4)).bmp_info_header.width = bmpW4.bmp_info_header.width ∧
        (scaleDown (scaleUp bmpW4)).bmp_info_header.height = bmpW4.bmp_info_header.height) :=
  ⟨by decide, c9_scale_dims_amended bmpW4 (by decide)⟩

/-! ## Claim C2 — stride invariant after decode -/

/-- C2 counterexample: decoding a well-formed 4×1 24bpp stream (width
divisible by 4) succeeds but leaves `row_stride = 0` — the aligned branch of
`operator>>` never assigns `row_stride` — so
`row_stride ≥ width * bytes_per_pixel` (12) fails. -/
theorem c2_stride_counterexample :
    ((decodedBitmap? (readBitmap Bitmap.default alignedStream)).map
      (fun b => (b.bmp_info_header.width, b.bmp_info_header.bit_count, b.row_stride,
        decide (b.row_stride % 4 = 0 ∧
          b.bmp_info_header.width.toNat * (b.bmp_info_header.bit_count / 8) ≤ b.row_stride)))) =
      some (4, 24, 0, false) := by
  decide

/-! ## Claim C3 — filter access bounds (pixelate's offset table) -/

set_option maxRecDepth 100000 in
/-- C3: the claim says every auxiliary-table index stays in bounds, but
`pixelate`'s write loop iterates `oX` over `[0, 17)` and indexes the 16-entry
`offset` table at `oX = 16`.  The value read there is unspecified stack
memory (the model's `junk` parameter), and it is **observable**: on a 17×17
bitmap whose column 16 differs from the block average, the output buffer
depends on `junk` (byte 48 is row 0, column 16, channel 0 of a valid-stride
bitmap).  With `junk = 8` the out-of-bounds write lands on column 16 and
flips it from 0 to 255; with `junk = 0` it aliases column 8 and the buffer is
unchanged. -/
theorem c3_pixelate_offset_table_overrun :
    (pixelate 0 bmp17).data.getD 48 0 = 0 ∧ (pixelate 8 bmp17).data.getD 48 0 = 255 ∧
      pixelate 0 bmp17 ≠ pixelate 8 bmp17 := by
  have h0 : (pixelate 0 bmp17).data.getD 48 0 = 0 := by decide
  have h8 : (pixelate 8 bmp17).data.getD 48 0 = 255 := by decide
  refine ⟨h0, h8, fun heq => ?_⟩
  rw [heq] at h0
  omega

/-! ## Claim C5 — blur divisor -/

/-- The one-dimensional kernel `[1,4,6,4,1]` named by the claim. -/
def gaussKernel1 : List Nat := [1, 4, 6, 4, 1]

/-- The claim's blur formula for channel `ch` of pixel `(y, x)`: the weighted
sum of the 5×5 neighbourhood under the outer product of `[1,4,6,4,1]` with
itself (total weight 256), iterated column-major like the source
(`j` = column offset index, `i` = row offset index). -/
def gaussianWeightedSum (d : List Nat) (stride bpp y x ch : Nat) : Nat :=
  ((List.range 5).map (fun j =>
    ((List.range 5).map (fun i =>
      d.getD (stride * (y + i - 2) + (x + j - 2) * bpp + ch) 0 *
        (gaussKernel1.getD i 0 * gaussKernel1.getD j 0))).sum)).sum

/-- C5 counterexample: on an all-white 6×6 bitmap the only interior pixel is
`(2,2)` (byte 42, channel 0).  The claim predicts
`⌊weighted sum / 256⌋ = ⌊65280/256⌋ = 255` (pixel unchanged); the code divides
by **255.0** instead, giving 256, which the `uint8_t` store wraps to 0. -/
theorem c5_blur_divisor_counterexample :
    (blur bmpWhite6).data.getD 42 0 = 0 ∧
      gaussianWeightedSum bmpWhite6.data 18 3 2 2 0 / 256 = 255 ∧
      (blur bmpWhite6).data.getD 42 0 ≠ gaussianWeightedSum bmpWhite6.data 18 3 2 2 0 / 256 := by
  refine ⟨by decide, by decide, by decide⟩

/-! ## Per-pixel value lemmas for cellShade and grayscale -/

theorem getD_lt_of_bounded {d : List Nat} (hb : ∀ v ∈ d, v < 256) (i : Nat) :
    d.getD i 0 < 256 := by
  rcases Nat.lt_or_ge i d.length with h | h
  · rw [List.getD_eq_getElem?_getD, List.getElem?_eq_getElem h]
    exact hb _ (List.getElem_mem h)
  · rw [List.getD_eq_getElem?_getD, List.getElem?_eq_none h]
    norm_num

theorem cellShadePixel_frame (stride bpp : Nat) (d : List Nat) (p : Nat × Nat) (i : Nat)
    (hi : i < stride * p.1 + p.2 * bpp ∨ stride * p.1 + p.2 * bpp + bpp ≤ i) :
    (cellShadePixel stride bpp d p).getD i 0 = d.getD i 0 := by
  unfold cellShadePixel
  refine foldl_getD_frame _ _ _ _ (fun ch => stride * p.1 + p.2 * bpp + ch) (fun _ => 1)
    (fun d ch _ j hj => getD_set_ne _ _ _ _ (by simp only [] at hj; omega)) ?_
  intro ch hch
  simp only [List.mem_range] at hch
  simp only []
  omega

theorem cellShadePixel_getD_self (stride bpp : Nat) (d : List Nat) (y x ch : Nat)
    (hch : ch < bpp) (hlen : stride * y + x * bpp + ch < d.length) :
    (cellShadePixel stride bpp d (y, x)).getD (stride * y + x * bpp + ch) 0 =
      nearesetNumber (d.getD (stride * y + x * bpp + ch) 0) := by
  unfold cellShadePixel
  rw [range_split hch]
  have hsplit := foldl_getD_split
    (fun d c => d.set (stride * y + x * bpp + c)
      (nearesetNumber (d.getD (stride * y + x * bpp + c) 0)))
    (List.range ch) (List.range' (ch + 1) (bpp - ch - 1)) ch d
    (stride * y + x * bpp + ch)
    (fun c => stride * y + x * bpp + c) (fun _ => 1)
    (fun d c _ j hj => getD_set_ne _ _ _ _ (by simp only [] at hj; omega))
    (fun c hc => by simp only [List.mem_range'_1] at hc; simp only []; omega)
  simp only at hsplit ⊢
  rw [hsplit]
  have hlenPre : ((List.range ch).foldl
      (fun d c => d.set (stride * y + x * bpp + c)
        (nearesetNumber (d.getD (stride * y + x * bpp + c) 0))) d).length = d.length :=
    foldl_length_eq _ _ (fun d c _ => by simp) d
  rw [getD_set_self _ _ _ (by omega)]
  congr 1
  refine foldl_getD_frame _ _ _ _ (fun c => stride * y + x * bpp + c) (fun _ => 1)
    (fun d c _ j hj => getD_set_ne _ _ _ _ (by simp only [] at hj; omega)) ?_
  intro c hc
  simp only [List.mem_range] at hc
  simp only []
  omega

/-- The scan fold of `cellShade`, evaluated at one channel byte of one pixel. -/
theorem cellShade_fold_getD (stride bpp w h : Nat) (d : List Nat)
    (hstride : w * bpp ≤ stride) (hlen : h * stride ≤ d.length)
    (y x ch : Nat) (hy : y < h) (hx : x < w) (hch : ch < bpp) :
    ((scanList h w).foldl (cellShadePixel stride bpp) d).getD
        (stride * y + x * bpp + ch) 0 =
      nearesetNumber (d.getD (stride * y + x * bpp + ch) 0) := by
  have hwin : x * bpp + bpp ≤ stride := by
    have h1 : (x + 1) * bpp ≤ w * bpp := Nat.mul_le_mul_right bpp (by omega)
    have h2 : x * bpp + bpp = (x + 1) * bpp := by ring
    omega
  have hidx : stride * y + x * bpp + ch < d.length := by
    have h2 : stride * (y + 1) ≤ stride * h := Nat.mul_le_mul_left stride (by omega)
    have h3 : stride * y + stride = stride * (y + 1) := by ring
    have h4 : stride * h = h * stride := by ring
    omega
  have hdisj : ∀ p : Nat × Nat, p.1 < h → p.2 < w → (p.1, p.2) ≠ (y, x) →
      stride * y + x * bpp + ch < stride * p.1 + p.2 * bpp ∨
        stride * p.1 + p.2 * bpp + bpp ≤ stride * y + x * bpp + ch := by
    intro p h1 h2 hne
    exact pixel_window_disjoint hstride hx h2 hch hne
  rw [scanList_decomp hy hx]
  rw [foldl_getD_split (cellShadePixel stride bpp) (scanBefore w y x) (scanAfter h w y x)
    (y, x) d (stride * y + x * bpp + ch)
    (fun p => stride * p.1 + p.2 * bpp) (fun _ => bpp)
    (fun d p _ i hi => cellShadePixel_frame stride bpp d p i hi)
    (fun p hp => by
      rcases mem_scanAfter hp with ⟨h1, h2, h3⟩ | ⟨h1, h2, h3⟩
      · exact hdisj p (h1 ▸ hy) h3 (by
          simp only [ne_eq, Prod.mk.injEq, not_and]
          omega)
      · exact hdisj p h2 h3 (by
          simp only [ne_eq, Prod.mk.injEq, not_and]
          omega))]
  have hlenPre : ((scanBefore w y x).foldl (cellShadePixel stride bpp) d).length = d.length :=
    foldl_length_eq _ _ (fun d p _ => cellShadePixel_length _ _ d p) d
  rw [cellShadePixel_getD_self _ _ _ _ _ _ hch (by omega)]
  congr 1
  refine foldl_getD_frame _ _ _ _ (fun p => stride * p.1 + p.2 * bpp) (fun _ => bpp)
    (fun d p _ i hi => cellShadePixel_frame stride bpp d p i hi) ?_
  intro p hp
  rcases mem_scanBefore hp with ⟨h1, h2⟩ | ⟨h1, h2⟩
  · exact hdisj p (by omega) h2 (by
      simp only [ne_eq, Prod.mk.injEq, not_and]
      omega)
  · exact hdisj p (h1 ▸ hy) (by omega) (by
      simp only [ne_eq, Prod.mk.injEq, not_and]
      omega)

/-- The quantization map as the claim words it: whichever of {0, 128, 255} is
numerically closest, ties resolved to the earlier value in the order
0, 128, 255. -/
def closestLevel (v : Nat) : Nat :=
  if Nat.dist v 0 ≤ Nat.dist v 128 then
    (if Nat.dist v 0 ≤ Nat.dist v 255 then 0 else 255)
  else if Nat.dist v 128 ≤ Nat.dist v 255 then 128 else 255

set_option maxRecDepth 10000 in
/-- For every byte, the source's `nearesetNumber` computes exactly the claim's
closest-of-{0,128,255} with first-match tie-breaking. -/
theorem nearesetNumber_eq_closestLevel : ∀ v < 256, nearesetNumber v = closestLevel v := by
  decide

/-! ## Claim C6 — cellShade quantizes every channel -/

/-- C6: on a valid-layout bitmap, `cellShade` replaces every channel of every
pixel in `[0, width) × [0, height)` with whichever of {0, 128, 255} is
numerically closest to the old value, ties resolved to the first match in the
order 0, 128, 255 (so 64 maps to 0). -/
theorem c6_cellShade_quantizes (b : Bitmap)
    (hstride : b.bmp_info_header.width.toNat * b.imageType ≤ b.row_stride)
    (hlen : b.bmp_info_header.height.toNat * b.row_stride ≤ b.data.length)
    (hbytes : ∀ v ∈ b.data, v < 256)
    (y x ch : Nat) (hy : y < b.bmp_info_header.height.toNat)
    (hx : x < b.bmp_info_header.width.toNat) (hch : ch < b.imageType) :
    (cellShade b).data.getD (b.row_stride * y + x * b.imageType + ch) 0 =
      closestLevel (b.data.getD (b.row_stride * y + x * b.imageType + ch) 0) := by
  have hdata : (cellShade b).data =
      (scanList b.bmp_info_header.height.toNat b.bmp_info_header.width.toNat).foldl
        (cellShadePixel b.row_stride b.imageType) b.data := rfl
  rw [hdata,
    cellShade_fold_getD b.row_stride b.imageType b.bmp_info_header.width.toNat
      b.bmp_info_header.height.toNat b.data hstride hlen y x ch hy hx hch,
    nearesetNumber_eq_closestLevel _ (getD_lt_of_bounded hbytes _)]

/-- 2×1 bitmap exercising a tie (64 → 0) and both rounding directions. -/
def bmpCell : Bitmap := mkBitmap 2 1 3 [64, 65, 191, 192, 255, 0]

/-- Witness: C6 applied to the concrete 2×1 bitmap at pixel (0,1), channel 0
(old value 192, quantized to 255). -/
theorem c6_cellShade_quantizes_witness :
    (bmpCell.bmp_info_header.width.toNat * bmpCell.imageType ≤ bmpCell.row_stride ∧
      bmpCell.bmp_info_header.height.toNat * bmpCell.row_stride ≤ bmpCell.data.length ∧
      (∀ v ∈ bmpCell.data, v < 256) ∧
      0 < bmpCell.bmp_info_header.height.toNat ∧ 1 < bmpCell.bmp_info_header.width.toNat ∧
      0 < bmpCell.imageType) ∧
    (cellShade bmpCell).data.getD (bmpCell.row_stride * 0 + 1 * bmpCell.imageType + 0) 0 =
      closestLevel (bmpCell.data.getD (bmpCell.row_stride * 0 + 1 * bmpCell.imageType + 0) 0) :=
  ⟨⟨by decide, by decide, by decide, by decide, by decide, by decide⟩,
    c6_cellShade_quantizes bmpCell (by decide) (by decide) (by decide) 0 1 0
      (by decide) (by decide) (by decide)⟩

/-! ## Per-pixel value lemmas for grayscale -/

/-- Sum of the `bpp` channel bytes of the pixel whose first byte is `base`. -/
def channelSum (d : List Nat) (base bpp : Nat) : Nat :=
  ((List.range bpp).map (fun c => d.getD (base + c) 0)).sum

theorem grayscalePixel_frame (stride bpp : Nat) (hbpp : bpp = 3 ∨ bpp = 4)
    (d : List Nat) (p : Nat × Nat) (i : Nat)
    (hi : i < stride * p.1 + p.2 * bpp ∨ stride * p.1 + p.2 * bpp + bpp ≤ i) :
    (grayscalePixel stride bpp d p).getD i 0 = d.getD i 0 := by
  unfold grayscalePixel
  rcases hbpp with hb | hb <;> subst hb <;> simp only []
  · rw [if_true]
    rw [getD_set_ne _ _ _ _ (by omega), getD_set_ne _ _ _ _ (by omega),
      getD_set_ne _ _ _ _ (by omega)]
  · rw [if_neg (show ¬(4 = 3) by omega)]
    rw [getD_set_ne _ _ _ _ (by omega), getD_set_ne _ _ _ _ (by omega),
      getD_set_ne _ _ _ _ (by omega), getD_set_ne _ _ _ _ (by omega)]

/-- Value written by `grayscalePixel` at each channel of its own pixel:
`((sum of the pixel's channels) / imageType)` through the `uint16_t` and
`uint8_t` stores. -/
theorem grayscalePixel_getD_self (stride bpp : Nat) (hbpp : bpp = 3 ∨ bpp = 4)
    (d : List Nat) (y x ch : Nat) (hch : ch < bpp)
    (hlen : stride * y + x * bpp + bpp ≤ d.length) :
    (grayscalePixel stride bpp d (y, x)).getD (stride * y + x * bpp + ch) 0 =
      channelSum d (stride * y + x * bpp) bpp / bpp % 65536 % 256 := by
  have hcs3 : channelSum d (stride * y + x * bpp) 3 =
      d.getD (stride * y + x * bpp + 0) 0 + d.getD (stride * y + x * bpp + 1) 0 +
        d.getD (stride * y + x * bpp + 2) 0 := by
    simp [channelSum, List.range_succ]
    ring
  have hcs4 : channelSum d (stride * y + x * bpp) 4 =
      d.getD (stride * y + x * bpp + 0) 0 + d.getD (stride * y + x * bpp + 1) 0 +
        d.getD (stride * y + x * bpp + 2) 0 + d.getD (stride * y + x * bpp + 3) 0 := by
    simp [channelSum, List.range_succ]
    ring
  unfold grayscalePixel
  rcases hbpp with hb | hb <;> subst hb <;> simp only []
  · rw [if_true, hcs3]
    interval_cases ch
    · rw [getD_set_ne _ _ _ _ (by omega), getD_set_ne _ _ _ _ (by omega),
        getD_set_self _ _ _ (by simp; omega)]
    · rw [getD_set_ne _ _ _ _ (by omega), getD_set_self _ _ _ (by simp; omega)]
    · rw [getD_set_self _ _ _ (by simp; omega)]
  · rw [if_neg (show ¬(4 = 3) by omega), hcs4]
    interval_cases ch
    · rw [getD_set_ne _ _ _ _ (by omega), getD_set_ne _ _ _ _ (by omega),
        getD_set_self _ _ _ (by simp; omega)]
    · rw [getD_set_ne _ _ _ _ (by omega), getD_set_self _ _ _ (by simp; omega)]
    · rw [getD_set_self _ _ _ (by simp; omega)]
    · rw [getD_set_ne _ _ _ _ (by omega), getD_set_ne _ _ _ _ (by omega),
        getD_set_ne _ _ _ _ (by omega), getD_set_self _ _ _ (by omega)]

/-- The scan fold of `grayscale`, evaluated at one channel byte of one pixel:
the written value is the integer average of the pixel's original channels. -/
theorem grayscale_fold_getD (stride bpp w h : Nat) (hbpp : bpp = 3 ∨ bpp = 4) (d : List Nat)
    (hstride : w * bpp ≤ stride) (hlen : h * stride ≤ d.length)
    (y x ch : Nat) (hy : y < h) (hx : x < w) (hch : ch < bpp) :
    ((scanList h w).foldl (grayscalePixel stride bpp) d).getD
        (stride * y + x * bpp + ch) 0 =
      channelSum d (stride * y + x * bpp) bpp / bpp % 65536 % 256 := by
  have hwin : x * bpp + bpp ≤ stride := by
    have h1 : (x + 1) * bpp ≤ w * bpp := Nat.mul_le_mul_right bpp (by omega)
    have h2 : x * bpp + bpp = (x + 1) * bpp := by ring
    omega
  have hidx : stride * y + x * bpp + bpp ≤ d.length := by
    have h2 : stride * (y + 1) ≤ stride * h := Nat.mul_le_mul_left stride (by omega)
    have h3 : stride * y + stride = stride * (y + 1) := by ring
    have h4 : stride * h = h * stride := by ring
    omega
  have hdisjAt : ∀ c, c < bpp → ∀ p : Nat × Nat, p.1 < h → p.2 < w → (p.1, p.2) ≠ (y, x) →
      stride * y + x * bpp + c < stride * p.1 + p.2 * bpp ∨
        stride * p.1 + p.2 * bpp + bpp ≤ stride * y + x * bpp + c := by
    intro c hc p h1 h2 hne
    exact pixel_window_disjoint hstride hx h2 hc hne
  rw [scanList_decomp hy hx]
  rw [foldl_getD_split (grayscalePixel stride bpp) (scanBefore w y x) (scanAfter h w y x)
    (y, x) d (stride * y + x * bpp + ch)
    (fun p => stride * p.1 + p.2 * bpp) (fun _ => bpp)
    (fun d p _ i hi => grayscalePixel_frame stride bpp hbpp d p i hi)
    (fun p hp => by
      rcases mem_scanAfter hp with ⟨h1, h2, h3⟩ | ⟨h1, h2, h3⟩
      · exact hdisjAt ch hch p (h1 ▸ hy) h3 (by
          simp only [ne_eq, Prod.mk.injEq, not_and]
          omega)
      · exact hdisjAt ch hch p h2 h3 (by
          simp only [ne_eq, Prod.mk.injEq, not_and]
          omega))]
  have hlenPre : ((scanBefore w y x).foldl (grayscalePixel stride bpp) d).length = d.length :=
    foldl_length_eq _ _ (fun d p _ => grayscalePixel_length _ _ d p) d
  rw [grayscalePixel_getD_self stride bpp hbpp _ y x ch hch (by omega)]
  have hagree : ∀ c, c < bpp →
      ((scanBefore w y x).foldl (grayscalePixel stride bpp) d).getD
          (stride * y + x * bpp + c) 0 =
        d.getD (stride * y + x * bpp + c) 0 := by
    intro c hc
    refine foldl_getD_frame _ _ _ _ (fun p => stride * p.1 + p.2 * bpp) (fun _ => bpp)
      (fun d p _ i hi => grayscalePixel_frame stride bpp hbpp d p i hi) ?_
    intro p hp
    rcases mem_scanBefore hp with ⟨h1, h2⟩ | ⟨h1, h2⟩
    · exact hdisjAt c hc p (by omega) h2 (by
        simp only [ne_eq, Prod.mk.injEq, not_and]
        omega)
    · exact hdisjAt c hc p (h1 ▸ hy) (by omega) (by
        simp only [ne_eq, Prod.mk.injEq, not_and]
        omega)
  have hsum : channelSum ((scanBefore w y x).foldl (grayscalePixel stride bpp) d)
      (stride * y + x * bpp) bpp = channelSum d (stride * y + x * bpp) bpp := by
    unfold channelSum
    congr 1
    refine List.map_congr_left ?_
    intro c hc
    simp only [List.mem_range] at hc
    exact hagree c hc
  rw [hsum]

/-! ## Claim C7 — grayscale averages channels -/

/-- C7: on a valid-layout bitmap with byte-valued data, after `grayscale`
every channel of every pixel (all of B, G, R, and also A when
`imageType = 4`) equals the integer average of the pixel's original channels:
the sum of the 3 (24bpp) or 4 (32bpp, alpha included) channels divided by
`imageType`.  In particular R = G = B everywhere. -/
theorem c7_grayscale_average (b : Bitmap)
    (hbpp : b.imageType = 3 ∨ b.imageType = 4)
    (hstride : b.bmp_info_header.width.toNat * b.imageType ≤ b.row_stride)
    (hlen : b.bmp_info_header.height.toNat * b.row_stride ≤ b.data.length)
    (hbytes : ∀ v ∈ b.data, v < 256)
    (y x ch : Nat) (hy : y < b.bmp_info_header.height.toNat)
    (hx : x < b.bmp_info_header.width.toNat) (hch : ch < b.imageType) :
    (grayscale b).data.getD (b.row_stride * y + x * b.imageType + ch) 0 =
      channelSum b.data (b.row_stride * y + x * b.imageType) b.imageType / b.imageType := by
  have hdata : (grayscale b).data =
      (scanList b.bmp_info_header.height.toNat b.bmp_info_header.width.toNat).foldl
        (grayscalePixel b.row_stride b.imageType) b.data := rfl
  rw [hdata,
    grayscale_fold_getD b.row_stride b.imageType b.bmp_info_header.width.toNat
      b.bmp_info_header.height.toNat hbpp b.data hstride hlen y x ch hy hx hch]
  have hsumlt : channelSum b.data (b.row_stride * y + x * b.imageType) b.imageType ≤
      b.imageType * 255 := by
    unfold channelSum
    have : ∀ c ∈ List.range b.imageType,
        b.data.getD (b.row_stride * y + x * b.imageType + c) 0 ≤ 255 := by
      intro c _
      have := getD_lt_of_bounded hbytes (b.row_stride * y + x * b.imageType + c)
      omega
    calc ((List.range b.imageType).map
            (fun c => b.data.getD (b.row_stride * y + x * b.imageType + c) 0)).sum
        ≤ ((List.range b.imageType).map (fun _ => 255)).sum := by
          apply List.sum_le_sum
          intro c hc
          exact this c hc
      _ = b.imageType * 255 := by
          simp [List.map_const', List.sum_replicate, smul_eq_mul]
  have hdiv : channelSum b.data (b.row_stride * y + x * b.imageType) b.imageType /
      b.imageType ≤ 255 := by
    rcases hbpp with hb | hb <;> rw [hb] <;> rw [hb] at hsumlt <;> omega
  rw [Nat.mod_eq_of_lt (lt_of_le_of_lt hdiv (by norm_num)),
    Nat.mod_eq_of_lt (lt_of_le_of_lt hdiv (by norm_num))]

/-- 1×1 32bpp bitmap: channels (10, 20, 30, 40), average 25. -/
def bmpGray : Bitmap := mkBitmap 1 1 4 [10, 20, 30, 40]

/-- Witness: C7 applied to the concrete 1×1 32bpp bitmap at channel 3 (alpha),
which is overwritten with the average 25. -/
theorem c7_grayscale_average_witness :
    ((bmpGray.imageType = 3 ∨ bmpGray.imageType = 4) ∧
      bmpGray.bmp_info_header.width.toNat * bmpGray.imageType ≤ bmpGray.row_stride ∧
      bmpGray.bmp_info_header.height.toNat * bmpGray.row_stride ≤ bmpGray.data.length ∧
      (∀ v ∈ bmpGray.data, v < 256) ∧
      0 < bmpGray.bmp_info_header.height.toNat ∧ 0 < bmpGray.bmp_info_header.width.toNat ∧
      3 < bmpGray.imageType) ∧
    (grayscale bmpGray).data.getD (bmpGray.row_stride * 0 + 0 * bmpGray.imageType + 3) 0 =
      channelSum bmpGray.data (bmpGray.row_stride * 0 + 0 * bmpGray.imageType)
        bmpGray.imageType / bmpGray.imageType :=
  ⟨⟨by decide, by decide, by decide, by decide, by decide, by decide, by decide⟩,
    c7_grayscale_average bmpGray (by decide) (by decide) (by decide) (by decide) 0 0 3
      (by decide) (by decide) (by decide)⟩

/-! ## Row-window lemmas for the flips -/

/-- A byte in row `a` at an in-row offset `< wB` lies outside the `wB`-wide
window of any other row, provided `wB ≤ stride`. -/
theorem row_window_disjoint {stride wB a a' r : Nat} (hwB : wB ≤ stride)
    (hr : r < wB) (hne : a ≠ a') :
    stride * a + r < stride * a' ∨ stride * a' + wB ≤ stride * a + r := by
  rcases Nat.lt_or_ge a a' with hlt | hge
  · left
    have h1 : stride * (a + 1) ≤ stride * a' := Nat.mul_le_mul_left stride (by omega)
    have h2 : stride * a + stride = stride * (a + 1) := by ring
    omega
  · right
    have hlt' : a' < a := by omega
    have h1 : stride * (a' + 1) ≤ stride * a := Nat.mul_le_mul_left stride (by omega)
    have h2 : stride * a' + stride = stride * (a' + 1) := by ring
    omega

/-- A byte whose row/offset decomposition misses every pixel window (row out
of range, or in-row offset past `wB`) lies outside all row windows. -/
theorem untouched_rows {stride wB h yq r : Nat} (hwB : wB ≤ stride)
    (hnot : ¬(yq < h ∧ r < wB)) (hr : r < stride) :
    ∀ a, a < h → stride * yq + r < stride * a ∨ stride * a + wB ≤ stride * yq + r := by
  intro a ha
  rcases Decidable.not_and_iff_or_not.mp hnot with hyq | hrw
  · right
    have h1 : stride * (a + 1) ≤ stride * h := Nat.mul_le_mul_left stride (by omega)
    have h2 : stride * h ≤ stride * yq := Nat.mul_le_mul_left stride (by omega)
    have h3 : stride * a + stride = stride * (a + 1) := by ring
    omega
  · rcases Nat.lt_or_ge yq a with hlt | hge
    · left
      have h1 : stride * (yq + 1) ≤ stride * a := Nat.mul_le_mul_left stride (by omega)
      have h2 : stride * yq + stride = stride * (yq + 1) := by ring
      omega
    · right
      have h1 : stride * a ≤ stride * yq := Nat.mul_le_mul_left stride hge
      omega

/-! ## flipv: closed form and involution -/

/-! ## copyPixel and flipv: closed form -/

theorem copyPixel_frame (orig : List Nat) (bpp : Nat) (hbpp : bpp = 3 ∨ bpp = 4)
    (d : List Nat) (dstOff srcOff i : Nat) (hi : i < dstOff ∨ dstOff + bpp ≤ i) :
    (copyPixel orig bpp d dstOff srcOff).getD i 0 = d.getD i 0 := by
  unfold copyPixel
  rcases hbpp with hb | hb <;> subst hb
  · rw [if_neg (by omega : ¬(3 = 4))]
    rw [getD_set_ne _ _ _ _ (by omega), getD_set_ne _ _ _ _ (by omega),
      getD_set_ne _ _ _ _ (by omega)]
  · rw [if_pos rfl]
    rw [getD_set_ne _ _ _ _ (by omega), getD_set_ne _ _ _ _ (by omega),
      getD_set_ne _ _ _ _ (by omega), getD_set_ne _ _ _ _ (by omega)]

theorem copyPixel_getD_self (orig : List Nat) (bpp : Nat) (hbpp : bpp = 3 ∨ bpp = 4)
    (d : List Nat) (dstOff srcOff c : Nat) (hc : c < bpp) (hlen : dstOff + c < d.length) :
    (copyPixel orig bpp d dstOff srcOff).getD (dstOff + c) 0 = orig.getD (srcOff + c) 0 := by
  unfold copyPixel
  rcases hbpp with hb | hb <;> subst hb
  · rw [if_neg (by omega : ¬(3 = 4))]
    interval_cases c
    · rw [getD_set_ne _ _ _ _ (by omega), getD_set_ne _ _ _ _ (by omega),
        getD_set_self _ _ _ (by omega)]
    · rw [getD_set_ne _ _ _ _ (by omega), getD_set_self _ _ _ (by simp; omega)]
    · rw [getD_set_self _ _ _ (by simp; omega)]
  · rw [if_pos rfl]
    interval_cases c
    · rw [getD_set_ne _ _ _ _ (by omega), getD_set_ne _ _ _ _ (by omega),
        getD_set_ne _ _ _ _ (by omega), getD_set_self _ _ _ (by omega)]
    · rw [getD_set_ne _ _ _ _ (by omega), getD_set_ne _ _ _ _ (by omega),
        getD_set_self _ _ _ (by simp; omega)]
    · rw [getD_set_ne _ _ _ _ (by omega), getD_set_self _ _ _ (by simp; omega)]
    · rw [getD_set_self _ _ _ (by simp; omega)]

theorem flipvRow_frame (orig : List Nat) (stride w bpp h : Nat) (hbpp : bpp = 3 ∨ bpp = 4)
    (d : List Nat) (y i : Nat)
    (hi : i < stride * (h - 1 - y) ∨ stride * (h - 1 - y) + w * bpp ≤ i) :
    (flipvRow orig stride w bpp h d y).getD i 0 = d.getD i 0 := by
  unfold flipvRow
  refine foldl_getD_frame _ _ _ _ (fun k => stride * (h - 1 - y) + k * bpp) (fun _ => bpp)
    (fun d k _ j hj => copyPixel_frame orig bpp hbpp d _ _ j
      (by simp only [] at hj; exact hj)) ?_
  intro k hk
  rw [if_neg (show ¬ bpp = 0 by rcases hbpp with hb | hb <;> omega)] at hk
  simp only [List.mem_range] at hk
  simp only []
  have h1 : (k + 1) * bpp ≤ w * bpp := Nat.mul_le_mul_right bpp (by omega)
  have h2 : (k + 1) * bpp = k * bpp + bpp := by ring
  omega

theorem flipvRow_getD_self (orig : List Nat) (stride w bpp h : Nat)
    (hbpp : bpp = 3 ∨ bpp = 4) (d : List Nat) (y k₀ c : Nat) (hk : k₀ < w) (hc : c < bpp)
    (hlen : stride * (h - 1 - y) + k₀ * bpp + c < d.length) :
    (flipvRow orig stride w bpp h d y).getD (stride * (h - 1 - y) + k₀ * bpp + c) 0 =
      orig.getD (stride * y + k₀ * bpp + c) 0 := by
  unfold flipvRow
  rw [if_neg (show ¬ bpp = 0 by rcases hbpp with hb | hb <;> omega)]
  rw [range_split hk]
  rw [foldl_getD_split
    (fun d k => copyPixel orig bpp d (stride * (h - 1 - y) + k * bpp) (stride * y + k * bpp))
    (List.range k₀) (List.range' (k₀ + 1) (w - k₀ - 1)) k₀ d
    (stride * (h - 1 - y) + k₀ * bpp + c)
    (fun k => stride * (h - 1 - y) + k * bpp) (fun _ => bpp)
    (fun d k _ j hj => copyPixel_frame orig bpp hbpp d _ _ j
      (by simp only [] at hj; exact hj))
    (fun k hk' => by
      simp only [List.mem_range'_1] at hk'
      simp only []
      have h1 : (k₀ + 1) * bpp ≤ k * bpp := Nat.mul_le_mul_right bpp (by omega)
      have h2 : (k₀ + 1) * bpp = k₀ * bpp + bpp := by ring
      omega)]
  have hlenPre : ((List.range k₀).foldl
      (fun d k => copyPixel orig bpp d (stride * (h - 1 - y) + k * bpp)
        (stride * y + k * bpp)) d).length = d.length :=
    foldl_length_eq _ _ (fun d k _ => copyPixel_length _ _ _ _ _) d
  have hgoal := copyPixel_getD_self orig bpp hbpp
    ((List.range k₀).foldl
      (fun d k => copyPixel orig bpp d (stride * (h - 1 - y) + k * bpp)
        (stride * y + k * bpp)) d)
    (stride * (h - 1 - y) + k₀ * bpp) (stride * y + k₀ * bpp) c hc (by omega)
  calc (copyPixel orig bpp _ (stride * (h - 1 - y) + k₀ * bpp)
          (stride * y + k₀ * bpp)).getD (stride * (h - 1 - y) + k₀ * bpp + c) 0
      = orig.getD (stride * y + k₀ * bpp + c) 0 := hgoal

/-- Closed form of the `flipv` row fold on pixel bytes: the byte at in-row
offset `r < w*bpp` of row `y` comes from row `h - 1 - y` of the snapshot. -/
theorem flipvFold_getD (stride w bpp h : Nat) (hbpp : bpp = 3 ∨ bpp = 4)
    (hstride : w * bpp ≤ stride) (d : List Nat) (hlen : h * stride ≤ d.length)
    (y r : Nat) (hy : y < h) (hr : r < w * bpp) :
    ((List.range h).foldl (flipvRow d stride w bpp h) d).getD (stride * y + r) 0 =
      d.getD (stride * (h - 1 - y) + r) 0 := by
  have hbpp0 : 0 < bpp := by rcases hbpp with hb | hb <;> omega
  have hy₀ : h - 1 - y < h := by omega
  rw [range_split hy₀]
  rw [foldl_getD_split (flipvRow d stride w bpp h)
    (List.range (h - 1 - y)) (List.range' (h - 1 - y + 1) (h - (h - 1 - y) - 1))
    (h - 1 - y) d (stride * y + r)
    (fun y' => stride * (h - 1 - y')) (fun _ => w * bpp)
    (fun d' y' _ i hi => flipvRow_frame d stride w bpp h hbpp d' y' i
      (by simp only [] at hi; exact hi))
    (fun y' hy' => by
      simp only [List.mem_range'_1] at hy'
      simp only []
      exact row_window_disjoint hstride hr (by omega))]
  have hk₀ : r / bpp < w := by
    rw [Nat.div_lt_iff_lt_mul hbpp0]
    omega
  have hc : r % bpp < bpp := Nat.mod_lt _ hbpp0
  have hdecomp : r = r / bpp * bpp + r % bpp := by
    conv_lhs => rw [← Nat.div_add_mod r bpp]
    ring
  have hrow : h - 1 - (h - 1 - y) = y := by omega
  have hlenPre : ((List.range (h - 1 - y)).foldl (flipvRow d stride w bpp h)
      d).length = d.length :=
    foldl_length_eq _ _ (fun d' a _ => flipvRow_length _ _ _ _ _ d' a) d
  have hidx : stride * y + r < d.length := by
    have h2 : stride * (y + 1) ≤ stride * h := Nat.mul_le_mul_left stride (by omega)
    have h3 : stride * y + stride = stride * (y + 1) := by ring
    have h4 : stride * h = h * stride := by ring
    omega
  have hself := flipvRow_getD_self d stride w bpp h hbpp
    ((List.range (h - 1 - y)).foldl (flipvRow d stride w bpp h) d)
    (h - 1 - y) (r / bpp) (r % bpp) hk₀ hc
    (by rw [hlenPre, hrow]; omega)
  rw [hrow] at hself
  have hidx1 : stride * y + r = stride * y + r / bpp * bpp + r % bpp := by omega
  have hidx2 : stride * (h - 1 - y) + r / bpp * bpp + r % bpp =
      stride * (h - 1 - y) + r := by omega
  rw [hidx1, hself, hidx2]

/-- Bytes outside every pixel window are untouched by the `flipv` row fold. -/
theorem flipvFold_getD_untouched (stride w bpp h : Nat) (hbpp : bpp = 3 ∨ bpp = 4)
    (d : List Nat) (j : Nat)
    (hj : ∀ a, a < h → j < stride * a ∨ stride * a + w * bpp ≤ j) :
    ((List.range h).foldl (flipvRow d stride w bpp h) d).getD j 0 = d.getD j 0 := by
  refine foldl_getD_frame _ _ _ _
    (fun y' => stride * (h - 1 - y')) (fun _ => w * bpp)
    (fun d' y' _ i hi => flipvRow_frame d stride w bpp h hbpp d' y' i
      (by simp only [] at hi; exact hi)) ?_
  intro y' hy'
  simp only [List.mem_range] at hy'
  simp only []
  exact hj (h - 1 - y') (by omega)

/-! ## fliph: closed form -/

theorem fliphRow_frame (orig : List Nat) (stride w bpp : Nat) (hbpp : bpp = 3 ∨ bpp = 4)
    (d : List Nat) (y i : Nat)
    (hi : i < stride * y ∨ stride * y + w * bpp ≤ i) :
    (fliphRow orig stride w bpp d y).getD i 0 = d.getD i 0 := by
  unfold fliphRow
  refine foldl_getD_frame _ _ _ _ (fun k => stride * y + k * bpp) (fun _ => bpp)
    (fun d k _ j hj => copyPixel_frame orig bpp hbpp d _ _ j
      (by simp only [] at hj; exact hj)) ?_
  intro k hk
  rw [if_neg (show ¬ bpp = 0 by rcases hbpp with hb | hb <;> omega)] at hk
  simp only [List.mem_range] at hk
  simp only []
  have h1 : (k + 1) * bpp ≤ w * bpp := Nat.mul_le_mul_right bpp (by omega)
  have h2 : (k + 1) * bpp = k * bpp + bpp := by ring
  omega

theorem fliphRow_getD_self (orig : List Nat) (stride w bpp : Nat)
    (hbpp : bpp = 3 ∨ bpp = 4) (d : List Nat) (y k₀ c : Nat) (hk : k₀ < w) (hc : c < bpp)
    (hlen : stride * y + k₀ * bpp + c < d.length) :
    (fliphRow orig stride w bpp d y).getD (stride * y + k₀ * bpp + c) 0 =
      orig.getD (stride * y + (w - 1 - k₀) * bpp + c) 0 := by
  unfold fliphRow
  rw [if_neg (show ¬ bpp = 0 by rcases hbpp with hb | hb <;> omega)]
  rw [range_split hk]
  rw [foldl_getD_split
    (fun d k => copyPixel orig bpp d (stride * y + k * bpp)
      (stride * y + ((w - 1) * bpp - k * bpp)))
    (List.range k₀) (List.range' (k₀ + 1) (w - k₀ - 1)) k₀ d
    (stride * y + k₀ * bpp + c)
    (fun k => stride * y + k * bpp) (fun _ => bpp)
    (fun d k _ j hj => copyPixel_frame orig bpp hbpp d _ _ j
      (by simp only [] at hj; exact hj))
    (fun k hk' => by
      simp only [List.mem_range'_1] at hk'
      simp only []
      have h1 : (k₀ + 1) * bpp ≤ k * bpp := Nat.mul_le_mul_right bpp (by omega)
      have h2 : (k₀ + 1) * bpp = k₀ * bpp + bpp := by ring
      omega)]
  have hlenPre : ((List.range k₀).foldl
      (fun d k => copyPixel orig bpp d (stride * y + k * bpp)
        (stride * y + ((w - 1) * bpp - k * bpp))) d).length = d.length :=
    foldl_length_eq _ _ (fun d k _ => copyPixel_length _ _ _ _ _) d
  have hsub : (w - 1) * bpp - k₀ * bpp = (w - 1 - k₀) * bpp := by
    rw [← Nat.sub_mul]
  have hgoal := copyPixel_getD_self orig bpp hbpp
    ((List.range k₀).foldl
      (fun d k => copyPixel orig bpp d (stride * y + k * bpp)
        (stride * y + ((w - 1) * bpp - k * bpp))) d)
    (stride * y + k₀ * bpp) (stride * y + ((w - 1) * bpp - k₀ * bpp)) c hc (by omega)
  rw [← hsub]
  exact hgoal

/-- Closed form of the `fliph` row fold: channel `c` of pixel `(y, k)` comes
from pixel `(y, w - 1 - k)` of the snapshot. -/
theorem fliphFold_getD (stride w bpp h : Nat) (hbpp : bpp = 3 ∨ bpp = 4)
    (hstride : w * bpp ≤ stride) (d : List Nat) (hlen : h * stride ≤ d.length)
    (y k c : Nat) (hy : y < h) (hk : k < w) (hc : c < bpp) :
    ((List.range h).foldl (fliphRow d stride w bpp) d).getD
        (stride * y + k * bpp + c) 0 =
      d.getD (stride * y + (w - 1 - k) * bpp + c) 0 := by
  have hbpp0 : 0 < bpp := by rcases hbpp with hb | hb <;> omega
  have hrlt : k * bpp + c < w * bpp := by
    have h1 : (k + 1) * bpp ≤ w * bpp := Nat.mul_le_mul_right bpp (by omega)
    have h2 : (k + 1) * bpp = k * bpp + bpp := by ring
    omega
  rw [range_split hy]
  rw [foldl_getD_split (fliphRow d stride w bpp)
    (List.range y) (List.range' (y + 1) (h - y - 1)) y d
    (stride * y + k * bpp + c)
    (fun y' => stride * y') (fun _ => w * bpp)
    (fun d' y' _ i hi => fliphRow_frame d stride w bpp hbpp d' y' i
      (by simp only [] at hi; exact hi))
    (fun y' hy' => by
      simp only [List.mem_range'_1] at hy'
      simp only []
      have := row_window_disjoint hstride hrlt (show y ≠ y' by omega)
      omega)]
  have hlenPre : ((List.range y).foldl (fliphRow d stride w bpp) d).length = d.length :=
    foldl_length_eq _ _ (fun d' a _ => fliphRow_length _ _ _ _ d' a) d
  have hidx : stride * y + k * bpp + c < d.length := by
    have h2 : stride * (y + 1) ≤ stride * h := Nat.mul_le_mul_left stride (by omega)
    have h3 : stride * y + stride = stride * (y + 1) := by ring
    have h4 : stride * h = h * stride := by ring
    omega
  exact fliphRow_getD_self d stride w bpp hbpp
    ((List.range y).foldl (fliphRow d stride w bpp) d) y k c hk hc (by omega)

/-- Bytes outside every pixel window are untouched by the `fliph` row fold. -/
theorem fliphFold_getD_untouched (stride w bpp h : Nat) (hbpp : bpp = 3 ∨ bpp = 4)
    (d : List Nat) (j : Nat)
    (hj : ∀ a, a < h → j < stride * a ∨ stride * a + w * bpp ≤ j) :
    ((List.range h).foldl (fliphRow d stride w bpp) d).getD j 0 = d.getD j 0 := by
  refine foldl_getD_frame _ _ _ _
    (fun y' => stride * y') (fun _ => w * bpp)
    (fun d' y' _ i hi => fliphRow_frame d stride w bpp hbpp d' y' i
      (by simp only [] at hi; exact hi)) ?_
  intro y' hy'
  simp only [List.mem_range] at hy'
  simp only []
  exact hj y' hy'

/-- Running the `flipv` row fold twice — the second pass snapshotting the
output of the first — restores the original buffer. -/
theorem flipvFold_involution (stride w bpp h : Nat) (hbpp : bpp = 3 ∨ bpp = 4)
    (hstride : w * bpp ≤ stride) (d : List Nat) (hlen : h * stride ≤ d.length) :
    (List.range h).foldl
        (flipvRow ((List.range h).foldl (flipvRow d stride w bpp h) d) stride w bpp h)
        ((List.range h).foldl (flipvRow d stride w bpp h) d) = d := by
  have hbpp0 : 0 < bpp := by rcases hbpp with hb | hb <;> omega
  have hlen1 : ((List.range h).foldl (flipvRow d stride w bpp h) d).length = d.length :=
    foldl_length_eq _ _ (fun d' a _ => flipvRow_length _ _ _ _ _ d' a) d
  have hlen2 : ((List.range h).foldl
      (flipvRow ((List.range h).foldl (flipvRow d stride w bpp h) d) stride w bpp h)
      ((List.range h).foldl (flipvRow d stride w bpp h) d)).length = d.length := by
    rw [foldl_length_eq _ _ (fun d' a _ => flipvRow_length _ _ _ _ _ d' a) _]
    exact hlen1
  apply List.ext_getElem hlen2
  intro i hi1 hi2
  rw [← List.getD_eq_getElem _ 0 hi1, ← List.getD_eq_getElem _ 0 hi2]
  by_cases htouch : 0 < stride ∧ i / stride < h ∧ i % stride < w * bpp
  · obtain ⟨hs0, hyq, hr⟩ := htouch
    have hdecomp : stride * (i / stride) + i % stride = i := Nat.div_add_mod i stride
    generalize hqe : i / stride = yq at hyq hdecomp
    generalize hre : i % stride = r at hr hdecomp
    have e1 := flipvFold_getD stride w bpp h hbpp hstride
      ((List.range h).foldl (flipvRow d stride w bpp h) d) (by rw [hlen1]; exact hlen)
      yq r hyq hr
    have e2 := flipvFold_getD stride w bpp h hbpp hstride d hlen
      (h - 1 - yq) r (by omega) hr
    have hrow : h - 1 - (h - 1 - yq) = yq := by omega
    rw [hrow] at e2
    calc ((List.range h).foldl
            (flipvRow ((List.range h).foldl (flipvRow d stride w bpp h) d) stride w bpp h)
            ((List.range h).foldl (flipvRow d stride w bpp h) d)).getD i 0
        = ((List.range h).foldl
            (flipvRow ((List.range h).foldl (flipvRow d stride w bpp h) d) stride w bpp h)
            ((List.range h).foldl (flipvRow d stride w bpp h) d)).getD
              (stride * yq + r) 0 := by rw [hdecomp]
      _ = ((List.range h).foldl (flipvRow d stride w bpp h) d).getD
              (stride * (h - 1 - yq) + r) 0 := e1
      _ = d.getD (stride * yq + r) 0 := e2
      _ = d.getD i 0 := by rw [hdecomp]
  · have hj : ∀ a, a < h → i < stride * a ∨ stride * a + w * bpp ≤ i := by
      rcases Nat.eq_zero_or_pos stride with hs | hs
      · intro a ha
        right
        have h1 : stride * a = 0 := by rw [hs]; ring
        omega
      · have hnot : ¬(i / stride < h ∧ i % stride < w * bpp) := by
          intro hcon; exact htouch ⟨hs, hcon⟩
        have hu := untouched_rows hstride hnot (Nat.mod_lt i hs)
        have hdecomp : stride * (i / stride) + i % stride = i := Nat.div_add_mod i stride
        generalize hqe : i / stride = yq at hu hdecomp
        generalize hre : i % stride = r at hu hdecomp
        intro a ha
        have := hu a ha
        omega
    rw [flipvFold_getD_untouched stride w bpp h hbpp _ i hj,
      flipvFold_getD_untouched stride w bpp h hbpp d i hj]

/-- Running the `fliph` row fold twice — the second pass snapshotting the
output of the first — restores the original buffer. -/
theorem fliphFold_involution (stride w bpp h : Nat) (hbpp : bpp = 3 ∨ bpp = 4)
    (hstride : w * bpp ≤ stride) (d : List Nat) (hlen : h * stride ≤ d.length) :
    (List.range h).foldl
        (fliphRow ((List.range h).foldl (fliphRow d stride w bpp) d) stride w bpp)
        ((List.range h).foldl (fliphRow d stride w bpp) d) = d := by
  have hbpp0 : 0 < bpp := by rcases hbpp with hb | hb <;> omega
  have hlen1 : ((List.range h).foldl (fliphRow d stride w bpp) d).length = d.length :=
    foldl_length_eq _ _ (fun d' a _ => fliphRow_length _ _ _ _ d' a) d
  have hlen2 : ((List.range h).foldl
      (fliphRow ((List.range h).foldl (fliphRow d stride w bpp) d) stride w bpp)
      ((List.range h).foldl (fliphRow d stride w bpp) d)).length = d.length := by
    rw [foldl_length_eq _ _ (fun d' a _ => fliphRow_length _ _ _ _ d' a) _]
    exact hlen1
  apply List.ext_getElem hlen2
  intro i hi1 hi2
  rw [← List.getD_eq_getElem _ 0 hi1, ← List.getD_eq_getElem _ 0 hi2]
  by_cases htouch : 0 < stride ∧ i / stride < h ∧ i % stride < w * bpp
  · obtain ⟨hs0, hyq, hr⟩ := htouch
    have hdecomp : stride * (i / stride) + i % stride = i := Nat.div_add_mod i stride
    generalize hqe : i / stride = yq at hyq hdecomp
    generalize hre : i % stride = r at hr hdecomp
    have hdecompr : r / bpp * bpp + r % bpp = r := by
      conv_rhs => rw [← Nat.div_add_mod r bpp]
      ring
    have hk : r / bpp < w := by
      rw [Nat.div_lt_iff_lt_mul hbpp0]
      omega
    have hc : r % bpp < bpp := Nat.mod_lt _ hbpp0
    generalize hke : r / bpp = k at hk hdecompr
    generalize hce : r % bpp = c at hc hdecompr
    have e1 := fliphFold_getD stride w bpp h hbpp hstride
      ((List.range h).foldl (fliphRow d stride w bpp) d) (by rw [hlen1]; exact hlen)
      yq k c hyq hk hc
    have e2 := fliphFold_getD stride w bpp h hbpp hstride d hlen
      yq (w - 1 - k) c hyq (by omega) hc
    have hkk : w - 1 - (w - 1 - k) = k := by omega
    rw [hkk] at e2
    calc ((List.range h).foldl
            (fliphRow ((List.range h).foldl (fliphRow d stride w bpp) d) stride w bpp)
            ((List.range h).foldl (fliphRow d stride w bpp) d)).getD i 0
        = ((List.range h).foldl
            (fliphRow ((List.range h).foldl (fliphRow d stride w bpp) d) stride w bpp)
            ((List.range h).foldl (fliphRow d stride w bpp) d)).getD
              (stride * yq + k * bpp + c) 0 := by
              rw [show stride * yq + k * bpp + c = i from by omega]
      _ = ((List.range h).foldl (fliphRow d stride w bpp) d).getD
              (stride * yq + (w - 1 - k) * bpp + c) 0 := e1
      _ = d.getD (stride * yq + k * bpp + c) 0 := e2
      _ = d.getD i 0 := by
              rw [show stride * yq + k * bpp + c = i from by omega]
  · have hj : ∀ a, a < h → i < stride * a ∨ stride * a + w * bpp ≤ i := by
      rcases Nat.eq_zero_or_pos stride with hs | hs
      · intro a ha
        right
        have h1 : stride * a = 0 := by rw [hs]; ring
        omega
      · have hnot : ¬(i / stride < h ∧ i % stride < w * bpp) := by
          intro hcon; exact htouch ⟨hs, hcon⟩
        have hu := untouched_rows hstride hnot (Nat.mod_lt i hs)
        have hdecomp : stride * (i / stride) + i % stride = i := Nat.div_add_mod i stride
        generalize hqe : i / stride = yq at hu hdecomp
        generalize hre : i % stride = r at hu hdecomp
        intro a ha
        have := hu a ha
        omega
    rw [fliphFold_getD_untouched stride w bpp h hbpp _ i hj,
      fliphFold_getD_untouched stride w bpp h hbpp d i hj]

/-- A concrete 4×2 24bpp bitmap with all-distinct bytes, for the C8 witness. -/
def bmpFlip : Bitmap := mkBitmap 4 2 3 (List.range 24)

/-- C8: for every bitmap with even width and height, a 24bpp or 32bpp pixel
format, and the valid layout contract (`width*bytes_per_pixel ≤ row_stride`
and `height*row_stride ≤ data.length`), `flipv` and `fliph` are involutions:
applying either twice returns the whole bitmap — in particular the pixel
buffer — to its original state. -/
theorem c8_flip_involutions (b : Bitmap)
    (hbpp : b.imageType = 3 ∨ b.imageType = 4)
    (hstride : b.bmp_info_header.width.toNat * b.imageType ≤ b.row_stride)
    (hlen : b.bmp_info_header.height.toNat * b.row_stride ≤ b.data.length)
    (hwEven : b.bmp_info_header.width.toNat % 2 = 0)
    (hhEven : b.bmp_info_header.height.toNat % 2 = 0) :
    flipv (flipv b) = b ∧ fliph (fliph b) = b := by
  constructor
  · have hd2 : flipv (flipv b) = { b with data := (flipv (flipv b)).data } := rfl
    have hdata : (flipv (flipv b)).data = b.data := by
      have h1 : (flipv (flipv b)).data =
          (List.range b.bmp_info_header.height.toNat).foldl
            (flipvRow ((List.range b.bmp_info_header.height.toNat).foldl
                (flipvRow b.data b.row_stride b.bmp_info_header.width.toNat b.imageType
                  b.bmp_info_header.height.toNat) b.data)
              b.row_stride b.bmp_info_header.width.toNat b.imageType
              b.bmp_info_header.height.toNat)
            ((List.range b.bmp_info_header.height.toNat).foldl
              (flipvRow b.data b.row_stride b.bmp_info_header.width.toNat b.imageType
                b.bmp_info_header.height.toNat) b.data) := rfl
      rw [h1]
      exact flipvFold_involution b.row_stride b.bmp_info_header.width.toNat b.imageType
        b.bmp_info_header.height.toNat hbpp hstride b.data hlen
    rw [hd2, hdata]
  · have hd2 : fliph (fliph b) = { b with data := (fliph (fliph b)).data } := rfl
    have hdata : (fliph (fliph b)).data = b.data := by
      have h1 : (fliph (fliph b)).data =
          (List.range b.bmp_info_header.height.toNat).foldl
            (fliphRow ((List.range b.bmp_info_header.height.toNat).foldl
                (fliphRow b.data b.row_stride b.bmp_info_header.width.toNat b.imageType)
                b.data)
              b.row_stride b.bmp_info_header.width.toNat b.imageType)
            ((List.range b.bmp_info_header.height.toNat).foldl
              (fliphRow b.data b.row_stride b.bmp_info_header.width.toNat b.imageType)
              b.data) := rfl
      rw [h1]
      exact fliphFold_involution b.row_stride b.bmp_info_header.width.toNat b.imageType
        b.bmp_info_header.height.toNat hbpp hstride b.data hlen
    rw [hd2, hdata]

/-- Witness: C8 applied to the concrete 4×2 24bpp bitmap with distinct bytes. -/
theorem c8_flip_involutions_witness :
    ((bmpFlip.imageType = 3 ∨ bmpFlip.imageType = 4) ∧
      bmpFlip.bmp_info_header.width.toNat * bmpFlip.imageType ≤ bmpFlip.row_stride ∧
      bmpFlip.bmp_info_header.height.toNat * bmpFlip.row_stride ≤ bmpFlip.data.length ∧
      bmpFlip.bmp_info_header.width.toNat % 2 = 0 ∧
      bmpFlip.bmp_info_header.height.toNat % 2 = 0) ∧
    (flipv (flipv bmpFlip) = bmpFlip ∧ fliph (fliph bmpFlip) = bmpFlip) :=
  ⟨⟨by decide, by decide, by decide, by decide, by decide⟩,
    c8_flip_involutions bmpFlip (by decide) (by decide) (by decide) (by decide) (by decide)⟩

/-! ## blur: closed form per pixel (claim C5, amended) -/

/-- Folding `(a + g v) % 65536` equals summing then reducing once. -/
theorem foldl_add_mod (g : Nat → Nat) (l : List Nat) (acc : Nat) (hacc : acc < 65536) :
    l.foldl (fun a v => (a + g v) % 65536) acc = (acc + (l.map g).sum) % 65536 := by
  induction l generalizing acc with
  | nil => simp [Nat.mod_eq_of_lt hacc]
  | cons v t ih =>
    rw [List.foldl_cons, ih _ (Nat.mod_lt _ (by norm_num)),
      List.map_cons, List.sum_cons, Nat.mod_add_mod, Nat.add_assoc]

theorem blurAcc_eq (stride bpp : Nat) (d : List Nat) (y x ch : Nat)
    (hy : 2 ≤ y) (hx : 2 ≤ x) (hd : ∀ j, d.getD j 0 < 256) :
    blurAcc stride bpp d y x ch = gaussianWeightedSum d stride bpp y x ch := by
  simp only [blurAcc, gaussianWeightedSum, show List.range 5 = [0,1,2,3,4] from rfl,
    List.foldl_cons, List.foldl_nil, List.map_cons, List.map_nil, List.sum_cons,
    List.sum_nil, blurOffset, blurFilter, gaussKernel1, List.getD, List.get?,
    Option.getD_some]
  have ey0 : ((y : Int) + -2).toNat = y + 0 - 2 := by omega
  have ey1 : ((y : Int) + -1).toNat = y + 1 - 2 := by omega
  have ey2 : ((y : Int) + 0).toNat = y + 2 - 2 := by omega
  have ey3 : ((y : Int) + 1).toNat = y + 3 - 2 := by omega
  have ey4 : ((y : Int) + 2).toNat = y + 4 - 2 := by omega
  have ex0 : ((x : Int) + -2).toNat = x + 0 - 2 := by omega
  have ex1 : ((x : Int) + -1).toNat = x + 1 - 2 := by omega
  have ex2 : ((x : Int) + 0).toNat = x + 2 - 2 := by omega
  have ex3 : ((x : Int) + 1).toNat = x + 3 - 2 := by omega
  have ex4 : ((x : Int) + 2).toNat = x + 4 - 2 := by omega
  rw [ey0, ey1, ey2, ey3, ey4, ex0, ex1, ex2, ex3, ex4]
  have hd' : ∀ j, (d.get? j).getD 0 < 256 := hd
  have hb00 := hd' (stride * (y + 0 - 2) + (x + 0 - 2) * bpp + ch)
  have hb01 := hd' (stride * (y + 0 - 2) + (x + 1 - 2) * bpp + ch)
  have hb02 := hd' (stride * (y + 0 - 2) + (x + 2 - 2) * bpp + ch)
  have hb03 := hd' (stride * (y + 0 - 2) + (x + 3 - 2) * bpp + ch)
  have hb04 := hd' (stride * (y + 0 - 2) + (x + 4 - 2) * bpp + ch)
  have hb10 := hd' (stride * (y + 1 - 2) + (x + 0 - 2) * bpp + ch)
  have hb11 := hd' (stride * (y + 1 - 2) + (x + 1 - 2) * bpp + ch)
  have hb12 := hd' (stride * (y + 1 - 2) + (x + 2 - 2) * bpp + ch)
  have hb13 := hd' (stride * (y + 1 - 2) + (x + 3 - 2) * bpp + ch)
  have hb14 := hd' (stride * (y + 1 - 2) + (x + 4 - 2) * bpp + ch)
  have hb20 := hd' (stride * (y + 2 - 2) + (x + 0 - 2) * bpp + ch)
  have hb21 := hd' (stride * (y + 2 - 2) + (x + 1 - 2) * bpp + ch)
  have hb22 := hd' (stride * (y + 2 - 2) + (x + 2 - 2) * bpp + ch)
  have hb23 := hd' (stride * (y + 2 - 2) + (x + 3 - 2) * bpp + ch)
  have hb24 := hd' (stride * (y + 2 - 2) + (x + 4 - 2) * bpp + ch)
  have hb30 := hd' (stride * (y + 3 - 2) + (x + 0 - 2) * bpp + ch)
  have hb31 := hd' (stride * (y + 3 - 2) + (x + 1 - 2) * bpp + ch)
  have hb32 := hd' (stride * (y + 3 - 2) + (x + 2 - 2) * bpp + ch)
  have hb33 := hd' (stride * (y + 3 - 2) + (x + 3 - 2) * bpp + ch)
  have hb34 := hd' (stride * (y + 3 - 2) + (x + 4 - 2) * bpp + ch)
  have hb40 := hd' (stride * (y + 4 - 2) + (x + 0 - 2) * bpp + ch)
  have hb41 := hd' (stride * (y + 4 - 2) + (x + 1 - 2) * bpp + ch)
  have hb42 := hd' (stride * (y + 4 - 2) + (x + 2 - 2) * bpp + ch)
  have hb43 := hd' (stride * (y + 4 - 2) + (x + 3 - 2) * bpp + ch)
  have hb44 := hd' (stride * (y + 4 - 2) + (x + 4 - 2) * bpp + ch)
  omega

theorem blurPixel_getD_self (stride bpp : Nat) (hbpp : bpp = 3 ∨ bpp = 4)
    (d : List Nat) (y x ch : Nat) (hch : ch < bpp)
    (hlen : stride * y + x * bpp + ch < d.length) :
    (blurPixel stride bpp d y x).getD (stride * y + x * bpp + ch) 0 =
      blurAcc stride bpp d y x ch / 255 % 256 := by
  rcases hbpp with hb | hb <;> subst hb <;> interval_cases ch <;>
    simp only [blurPixel, show List.range 3 = [0,1,2] from rfl,
      show List.range 4 = [0,1,2,3] from rfl, List.foldl_cons, List.foldl_nil,
      List.getD, List.get?, Option.getD_some] <;>
    rw [List.get?_eq_getElem?, ← List.getD_eq_getElem?_getD]
  · rw [getD_set_ne _ _ _ _ (by omega), getD_set_ne _ _ _ _ (by omega),
      getD_set_self _ _ _ (by omega)]
  · rw [getD_set_ne _ _ _ _ (by omega), getD_set_self _ _ _ (by simp; omega)]
  · rw [getD_set_self _ _ _ (by simp; omega)]
  · rw [getD_set_ne _ _ _ _ (by omega), getD_set_ne _ _ _ _ (by omega),
      getD_set_ne _ _ _ _ (by omega), getD_set_self _ _ _ (by omega)]
  · rw [getD_set_ne _ _ _ _ (by omega), getD_set_ne _ _ _ _ (by omega),
      getD_set_self _ _ _ (by simp; omega)]
  · rw [getD_set_ne _ _ _ _ (by omega), getD_set_self _ _ _ (by simp; omega)]
  · rw [getD_set_self _ _ _ (by simp; omega), if_true]

theorem blurPixel_frame (stride bpp : Nat) (d : List Nat) (y x i : Nat)
    (hi : i < stride * y + x * bpp ∨ stride * y + x * bpp + bpp ≤ i) :
    (blurPixel stride bpp d y x).getD i 0 = d.getD i 0 := by
  unfold blurPixel
  refine foldl_getD_frame _ _ _ _ (fun ch => stride * y + x * bpp + ch) (fun _ => 1)
    (fun d ch _ j hj => by
      simp only [] at hj
      exact getD_set_ne _ _ _ _ (by omega)) ?_
  intro ch hch
  simp only [List.mem_range] at hch
  simp only []
  omega

theorem foldl_set_getD_lt (vals pos : Nat → Nat) (hv : ∀ k, vals k < 256)
    (l : List Nat) (d : List Nat) (hd : ∀ j, d.getD j 0 < 256) :
    ∀ j, (l.foldl (fun d k => d.set (pos k) (vals k)) d).getD j 0 < 256 := by
  induction l generalizing d with
  | nil => exact hd
  | cons a t ih =>
    refine ih _ (fun j => ?_)
    by_cases hja : pos a = j
    · subst hja
      rcases Nat.lt_or_ge (pos a) d.length with hl | hl
      · rw [getD_set_self _ _ _ hl]
        exact hv a
      · rw [List.getD_eq_default _ _ (by simp; omega)]
        norm_num
    · rw [getD_set_ne _ _ _ _ hja]
      exact hd j

theorem blurPixel_getD_lt (stride bpp : Nat) (d : List Nat) (y x : Nat)
    (hd : ∀ j, d.getD j 0 < 256) : ∀ j, (blurPixel stride bpp d y x).getD j 0 < 256 := by
  unfold blurPixel
  exact foldl_set_getD_lt _ (fun ch => stride * y + x * bpp + ch)
    (fun k => Nat.mod_lt _ (by norm_num)) _ d hd

theorem blurFold_getD_lt (stride bpp : Nat) (l : List (Nat × Nat)) (d : List Nat)
    (hd : ∀ j, d.getD j 0 < 256) :
    ∀ j, (l.foldl (fun d ij => blurPixel stride bpp d (2 + ij.1) (2 + ij.2)) d).getD j 0
      < 256 := by
  induction l generalizing d with
  | nil => exact hd
  | cons a t ih => exact ih _ (blurPixel_getD_lt _ _ _ _ _ hd)

theorem blurFold_length (stride bpp : Nat) (l : List (Nat × Nat)) (d : List Nat) :
    (l.foldl (fun d ij => blurPixel stride bpp d (2 + ij.1) (2 + ij.2)) d).length =
      d.length :=
  foldl_length_eq _ _ (fun d a _ => blurPixel_length _ _ _ _ _) d

theorem blurFold_getD_untouched (stride bpp w yc xc : Nat) (hbpp : bpp = 3 ∨ bpp = 4)
    (hstride : w * bpp ≤ stride) (hxcw : xc + 2 ≤ w ∨ xc = 0)
    (d : List Nat) (y x ch : Nat) (hx : x < w) (hch : ch < bpp)
    (hout : ∀ i' j', i' < yc → j' < xc → (2 + i', 2 + j') ≠ (y, x)) :
    ((scanList yc xc).foldl (fun d ij => blurPixel stride bpp d (2 + ij.1) (2 + ij.2))
        d).getD (stride * y + x * bpp + ch) 0 =
      d.getD (stride * y + x * bpp + ch) 0 := by
  refine foldl_getD_frame _ _ _ _
    (fun ij => stride * (2 + ij.1) + (2 + ij.2) * bpp) (fun _ => bpp)
    (fun d a _ i hi => blurPixel_frame stride bpp d _ _ i (by simp only [] at hi; exact hi))
    ?_
  intro a ha
  obtain ⟨ha1, ha2⟩ := mem_scanList ha
  simp only []
  have hxcw' : xc + 2 ≤ w := by rcases hxcw with h | h; exact h; omega
  exact pixel_window_disjoint hstride hx (by omega) hch (hout a.1 a.2 ha1 ha2)

theorem blurFold_getD_interior (stride bpp w yc xc : Nat) (hbpp : bpp = 3 ∨ bpp = 4)
    (hstride : w * bpp ≤ stride) (hxcw : xc + 2 ≤ w)
    (d : List Nat) (i j ch : Nat) (hi : i < yc) (hj : j < xc) (hch : ch < bpp)
    (hidx : stride * (2 + i) + (2 + j) * bpp + ch < d.length) :
    ((scanList yc xc).foldl (fun d ij => blurPixel stride bpp d (2 + ij.1) (2 + ij.2))
        d).getD (stride * (2 + i) + (2 + j) * bpp + ch) 0 =
      blurAcc stride bpp
          ((scanBefore xc i j).foldl
            (fun d ij => blurPixel stride bpp d (2 + ij.1) (2 + ij.2)) d)
          (2 + i) (2 + j) ch / 255 % 256 := by
  rw [scanList_decomp hi hj]
  rw [foldl_getD_split (fun d ij => blurPixel stride bpp d (2 + ij.1) (2 + ij.2))
    (scanBefore xc i j) (scanAfter yc xc i j) (i, j) d
    (stride * (2 + i) + (2 + j) * bpp + ch)
    (fun ij => stride * (2 + ij.1) + (2 + ij.2) * bpp) (fun _ => bpp)
    (fun d a _ i' hi' => blurPixel_frame stride bpp d _ _ i'
      (by simp only [] at hi'; exact hi'))
    (fun a ha => by
      simp only []
      rcases mem_scanAfter ha with ⟨h1, h2, h3⟩ | ⟨h1, h2, h3⟩
      · exact pixel_window_disjoint hstride (by omega) (by omega) hch
          (by intro hc; rw [Prod.mk.injEq] at hc; omega)
      · exact pixel_window_disjoint hstride (by omega) (by omega) hch
          (by intro hc; rw [Prod.mk.injEq] at hc; omega))]
  have hlenPre : ((scanBefore xc i j).foldl
      (fun d ij => blurPixel stride bpp d (2 + ij.1) (2 + ij.2)) d).length = d.length :=
    blurFold_length stride bpp _ d
  exact blurPixel_getD_self stride bpp hbpp _ (2 + i) (2 + j) ch hch (by omega)

/-- `stepCount 2 hi 1` iterates `hi.toNat - 2` times. -/
theorem stepCount_two_one (hi : Int) : stepCount 2 hi 1 = hi.toNat - 2 := by
  unfold stepCount
  omega

/-- The live buffer just before `blur` processes interior pixel
`(2 + i, 2 + j)`: the fold of `blurPixel` over all scan-order predecessors. -/
def blurPrefixData (b : Bitmap) (i j : Nat) : List Nat :=
  (scanBefore (stepCount 2 (b.bmp_info_header.width - 3) 1) i j).foldl
    (fun d ij => blurPixel b.row_stride b.imageType d (2 + ij.1) (2 + ij.2)) b.data

/-- C5 (amended): under the valid layout contract with byte-valued data, for
every interior pixel (`2 ≤ y < height-3`, `2 ≤ x < width-3`) and channel,
`blur` stores the 5×5 Gaussian-weighted sum of the **partially updated live
buffer** (the state after all scan-order predecessors were processed) divided
by 255 (not 256), reduced mod 256 by the `uint8_t` store; and every pixel in
the border margin (first two and last three rows/columns) keeps its original
bytes. -/
theorem c5_blur_amended (b : Bitmap)
    (hbpp : b.imageType = 3 ∨ b.imageType = 4)
    (hstride : b.bmp_info_header.width.toNat * b.imageType ≤ b.row_stride)
    (hlen : b.bmp_info_header.height.toNat * b.row_stride ≤ b.data.length)
    (hbytes : ∀ v ∈ b.data, v < 256) :
    (∀ y x ch, 2 ≤ y → y < b.bmp_info_header.height.toNat - 3 →
        2 ≤ x → x < b.bmp_info_header.width.toNat - 3 → ch < b.imageType →
      (blur b).data.getD (b.row_stride * y + x * b.imageType + ch) 0 =
        gaussianWeightedSum (blurPrefixData b (y - 2) (x - 2)) b.row_stride b.imageType
          y x ch / 255 % 256) ∧
    (∀ y x ch, y < b.bmp_info_header.height.toNat → x < b.bmp_info_header.width.toNat →
        ch < b.imageType →
        ¬(2 ≤ y ∧ y < b.bmp_info_header.height.toNat - 3 ∧
            2 ≤ x ∧ x < b.bmp_info_header.width.toNat - 3) →
      (blur b).data.getD (b.row_stride * y + x * b.imageType + ch) 0 =
        b.data.getD (b.row_stride * y + x * b.imageType + ch) 0) := by
  have hyc : stepCount 2 (b.bmp_info_header.height - 3) 1 =
      b.bmp_info_header.height.toNat - 5 := by
    rw [stepCount_two_one]
    omega
  have hxc : stepCount 2 (b.bmp_info_header.width - 3) 1 =
      b.bmp_info_header.width.toNat - 5 := by
    rw [stepCount_two_one]
    omega
  have hdata : (blur b).data =
      (scanList (stepCount 2 (b.bmp_info_header.height - 3) 1)
          (stepCount 2 (b.bmp_info_header.width - 3) 1)).foldl
        (fun d ij => blurPixel b.row_stride b.imageType d (2 + ij.1) (2 + ij.2))
        b.data := rfl
  constructor
  · intro y x ch hy2 hyH hx2 hxW hch
    obtain ⟨i, rfl⟩ : ∃ i, y = 2 + i := ⟨y - 2, by omega⟩
    obtain ⟨j, rfl⟩ : ∃ j, x = 2 + j := ⟨x - 2, by omega⟩
    have hi : i < stepCount 2 (b.bmp_info_header.height - 3) 1 := by rw [hyc]; omega
    have hj : j < stepCount 2 (b.bmp_info_header.width - 3) 1 := by rw [hxc]; omega
    have hxcw : stepCount 2 (b.bmp_info_header.width - 3) 1 + 2 ≤
        b.bmp_info_header.width.toNat := by rw [hxc] at hj ⊢; omega
    have hidx : b.row_stride * (2 + i) + (2 + j) * b.imageType + ch < b.data.length := by
      have h1 : (2 + j + 1) * b.imageType ≤
          b.bmp_info_header.width.toNat * b.imageType :=
        Nat.mul_le_mul_right _ (by omega)
      have h2 : (2 + j + 1) * b.imageType = (2 + j) * b.imageType + b.imageType := by ring
      have h3 : b.row_stride * (2 + i + 1) ≤
          b.row_stride * b.bmp_info_header.height.toNat :=
        Nat.mul_le_mul_left _ (by omega)
      have h4 : b.row_stride * (2 + i) + b.row_stride = b.row_stride * (2 + i + 1) := by
        ring
      have h5 : b.row_stride * b.bmp_info_header.height.toNat =
          b.bmp_info_header.height.toNat * b.row_stride := by ring
      omega
    rw [hdata]
    rw [blurFold_getD_interior b.row_stride b.imageType b.bmp_info_header.width.toNat
      _ _ hbpp hstride hxcw b.data i j ch hi hj hch hidx]
    have hpre : blurPrefixData b (2 + i - 2) (2 + j - 2) =
        (scanBefore (stepCount 2 (b.bmp_info_header.width - 3) 1) i j).foldl
          (fun d ij => blurPixel b.row_stride b.imageType d (2 + ij.1) (2 + ij.2))
          b.data := by
      rw [show 2 + i - 2 = i from by omega, show 2 + j - 2 = j from by omega]
      rfl
    rw [hpre]
    rw [blurAcc_eq b.row_stride b.imageType _ (2 + i) (2 + j) ch (by omega) (by omega)
      (blurFold_getD_lt b.row_stride b.imageType _ b.data
        (fun j' => getD_lt_of_bounded hbytes j'))]
  · intro y x ch hyH hxW hch hnot
    rw [hdata]
    refine blurFold_getD_untouched b.row_stride b.imageType b.bmp_info_header.width.toNat
      _ _ hbpp hstride ?_ b.data y x ch hxW hch ?_
    · rcases Nat.eq_zero_or_pos (stepCount 2 (b.bmp_info_header.width - 3) 1) with h0 | h0
      · exact Or.inr h0
      · left
        rw [hxc] at h0 ⊢
        omega
    · intro i' j' hi' hj'
      rw [hyc] at hi'
      rw [hxc] at hj'
      intro hc
      rw [Prod.mk.injEq] at hc
      exact hnot ⟨by omega, by omega, by omega, by omega⟩

/-- Witness: the amended C5 applied to the all-white 6×6 bitmap at its sole
interior pixel `(2,2)`, channel 0. -/
theorem c5_blur_amended_witness :
    ((bmpWhite6.imageType = 3 ∨ bmpWhite6.imageType = 4) ∧
      bmpWhite6.bmp_info_header.width.toNat * bmpWhite6.imageType ≤ bmpWhite6.row_stride ∧
      bmpWhite6.bmp_info_header.height.toNat * bmpWhite6.row_stride ≤
        bmpWhite6.data.length ∧
      (∀ v ∈ bmpWhite6.data, v < 256)) ∧
    (blur bmpWhite6).data.getD
        (bmpWhite6.row_stride * 2 + 2 * bmpWhite6.imageType + 0) 0 =
      gaussianWeightedSum (blurPrefixData bmpWhite6 (2 - 2) (2 - 2)) bmpWhite6.row_stride
        bmpWhite6.imageType 2 2 0 / 255 % 256 :=
  ⟨⟨by decide, by decide, by decide, by decide⟩,
    (c5_blur_amended bmpWhite6 (by decide) (by decide) (by decide) (by decide)).1 2 2 0
      (by decide) (by decide) (by decide) (by decide) (by decide)⟩

/-! ## Claims C1 and C2 — decode/encode round-trip of generated BMP streams -/

theorem sliceAt_length_of_le {bs : List Nat} {p n : Nat} (h : p + n ≤ bs.length) :
    (sliceAt bs p n).length = n := by
  simp [sliceAt]
  omega

theorem sread_ok {s : IStream} {n : Nat} (hf : s.fail = false)
    (h : s.pos + n ≤ s.bytes.length) :
    sread s n = (sliceAt s.bytes s.pos n,
      { bytes := s.bytes, pos := s.pos + n, fail := false }) := by
  unfold sread
  rw [hf]
  simp only [Bool.false_eq_true, if_false]
  rw [sliceAt_length_of_le h]
  simp

theorem writeAt_length (d : List Nat) (p : Nat) (xs : List Nat) :
    (writeAt d p xs).length = d.length := by
  induction xs generalizing d p with
  | nil => rfl
  | cons a t ih => rw [writeAt, ih, List.length_set]

theorem writeAt_eq (xs : List Nat) (d : List Nat) (p : Nat)
    (h : p + xs.length ≤ d.length) :
    writeAt d p xs = d.take p ++ xs ++ d.drop (p + xs.length) := by
  induction xs generalizing d p with
  | nil =>
    simp [writeAt]
  | cons a t ih =>
    have hp : p < d.length := by simp at h; omega
    rw [writeAt, ih _ _ (by rw [List.length_set]; simp at h ⊢; omega)]
    have hset : d.set p a = d.take p ++ a :: d.drop (p + 1) := by
      rw [List.set_eq_take_append_cons_drop, if_pos hp]
    have htakelen : (d.take p).length = p := by
      rw [List.length_take]
      omega
    have h1 : (d.set p a).take (p + 1) = d.take p ++ [a] := by
      rw [hset, List.take_append_eq_append_take, htakelen,
        List.take_of_length_le (by rw [htakelen]; omega)]
      congr 1
      rw [show p + 1 - p = 1 from by omega]
      rfl
    have h2 : (d.set p a).drop (p + 1 + t.length) = d.drop (p + (t.length + 1)) := by
      rw [hset, List.drop_append_eq_append_drop, htakelen,
        List.drop_eq_nil_of_le (by rw [htakelen]; omega)]
      rw [show p + 1 + t.length - p = t.length + 1 from by omega]
      rw [List.drop_succ_cons, List.drop_drop]
      rw [show p + 1 + t.length = p + (t.length + 1) from by omega]
      simp
    rw [h1, h2]
    simp [List.append_assoc]

theorem natCast_tdiv_eight (m : Nat) : ((m : Int)).tdiv 8 = ((m / 8 : Nat) : Int) := by
  rw [show ((m : Int)) = (((m : Nat) : Int)) from rfl,
    show (8 : Int) = (((8 : Nat)) : Int) from rfl, ← Int.ofNat_tdiv]

def rsOf (ih : BMPInfoHeader) : Nat := ((ih.width * (ih.bit_count : Int)).tdiv 8).toNat

def padOf (ih : BMPInfoHeader) : Nat := make_stride_aligned (rsOf ih) 4 - rsOf ih

def allocLen (ih : BMPInfoHeader) : Nat :=
  ((ih.width * 3 * 3 * ih.height * (ih.bit_count : Int)).tdiv 8).toNat

def decodedData (ih : BMPInfoHeader) (payload : List Nat) : List Nat :=
  if ih.width.tmod 4 = 0 then
    sliceAt payload 0 (allocLen ih) ++
      List.replicate (allocLen ih - (sliceAt payload 0 (allocLen ih)).length) 0
  else
    ((List.range ih.height.toNat).map
        (fun y => sliceAt payload (y * (rsOf ih + padOf ih)) (rsOf ih))).flatten ++
      List.replicate (allocLen ih - rsOf ih * ih.height.toNat) 0

def mkBMPStream (fh : BMPFileHeader) (ih : BMPInfoHeader) (ch : BMPColorHeader)
    (payload : List Nat) : List Nat :=
  serFileHeader fh ++ serInfoHeader ih ++
    (if ih.bit_count = 32 then serColorHeader ch else []) ++ payload

def decodedBMP (fh : BMPFileHeader) (ih : BMPInfoHeader) (ch : BMPColorHeader)
    (payload : List Nat) : Bitmap :=
  { row_stride := if ih.width.tmod 4 = 0 then 0 else rsOf ih
    imageType := ih.bit_count / 8
    file_header := { fh with
      offset_data := if ih.bit_count = 32 then 138 else 54
      file_size := ((if ih.bit_count = 32 then 138 else 54) + allocLen ih +
        (if ih.width.tmod 4 = 0 then 0 else ih.height.toNat * padOf ih)) % 4294967296 }
    bmp_info_header := { ih with size := if ih.bit_count = 32 then 124 else 40 }
    bmp_color_header := if ih.bit_count = 32 then ch else Bitmap.default.bmp_color_header
    data := decodedData ih payload }

theorem resizeTo_length (d : List Nat) (n : Nat) : (resizeTo d n).length = n := by
  simp [resizeTo]
  omega

theorem sliceAt_length_le (bs : List Nat) (p n : Nat) : (sliceAt bs p n).length ≤ n := by
  simp [sliceAt]

theorem rsOf_eq {ih : BMPInfoHeader} (h0 : 0 ≤ ih.width) :
    rsOf ih = ih.width.toNat * ih.bit_count / 8 := by
  have hw : ih.width = (ih.width.toNat : Int) := (Int.toNat_of_nonneg h0).symm
  have hcast : ih.width * (ih.bit_count : Int) =
      ((ih.width.toNat * ih.bit_count : Nat) : Int) := by
    conv_lhs => rw [hw]
    push_cast
    ring
  rw [rsOf, hcast, natCast_tdiv_eight]
  exact Int.toNat_natCast _

theorem allocLen_eq {ih : BMPInfoHeader} (h0w : 0 ≤ ih.width) (h0h : 0 ≤ ih.height) :
    allocLen ih = ih.width.toNat * 3 * 3 * ih.height.toNat * ih.bit_count / 8 := by
  have hw : ih.width = (ih.width.toNat : Int) := (Int.toNat_of_nonneg h0w).symm
  have hh : ih.height = (ih.height.toNat : Int) := (Int.toNat_of_nonneg h0h).symm
  have hcast : ih.width * 3 * 3 * ih.height * (ih.bit_count : Int) =
      ((ih.width.toNat * 3 * 3 * ih.height.toNat * ih.bit_count : Nat) : Int) := by
    conv_lhs => rw [hw, hh]
    push_cast
    ring
  rw [allocLen, hcast, natCast_tdiv_eight]
  exact Int.toNat_natCast _

theorem rows_le_alloc {ih : BMPInfoHeader} (h0w : 0 ≤ ih.width) (h0h : 0 ≤ ih.height) :
    rsOf ih * ih.height.toNat ≤ allocLen ih := by
  rw [rsOf_eq h0w, allocLen_eq h0w h0h]
  have h1 : ih.width.toNat * ih.bit_count / 8 * ih.height.toNat ≤
      ih.width.toNat * ih.bit_count * ih.height.toNat / 8 := by
    rw [Nat.le_div_iff_mul_le (by norm_num)]
    have h2 : ih.width.toNat * ih.bit_count / 8 * 8 ≤ ih.width.toNat * ih.bit_count :=
      Nat.div_mul_le_self _ _
    calc ih.width.toNat * ih.bit_count / 8 * ih.height.toNat * 8
        = ih.width.toNat * ih.bit_count / 8 * 8 * ih.height.toNat := by ring
      _ ≤ ih.width.toNat * ih.bit_count * ih.height.toNat :=
          Nat.mul_le_mul_right _ h2
  refine le_trans h1 (Nat.div_le_div_right ?_)
  calc ih.width.toNat * ih.bit_count * ih.height.toNat
      = ih.width.toNat * 1 * 1 * ih.height.toNat * ih.bit_count := by ring
    _ ≤ ih.width.toNat * 3 * 3 * ih.height.toNat * ih.bit_count := by
        refine Nat.mul_le_mul_right _ (Nat.mul_le_mul_right _ ?_)
        refine Nat.mul_le_mul ?_ (by norm_num)
        exact Nat.mul_le_mul_left _ (by norm_num)

theorem padOf_32 {ih : BMPInfoHeader} (h0 : 0 ≤ ih.width) (hbc : ih.bit_count = 32) :
    padOf ih = 0 := by
  have hrs : rsOf ih % 4 = 0 := by
    rw [rsOf_eq h0, hbc]
    omega
  rw [padOf, msa_done hrs]
  omega

theorem decodedData_length {ih : BMPInfoHeader} (payload : List Nat)
    (h0w : 0 ≤ ih.width) (h0h : 0 ≤ ih.height)
    (hrows : ih.width.tmod 4 ≠ 0 → ((List.range ih.height.toNat).map
      (fun y => sliceAt payload (y * (rsOf ih + padOf ih)) (rsOf ih))).flatten.length =
        rsOf ih * ih.height.toNat) :
    (decodedData ih payload).length = allocLen ih := by
  unfold decodedData
  split
  · have := sliceAt_length_le payload 0 (allocLen ih)
    simp only [List.length_append, List.length_replicate]
    omega
  · rw [List.length_append, List.length_replicate,
      hrows (by assumption)]
    have := rows_le_alloc h0w h0h
    omega

theorem length_flatten_rows (f : Nat → List Nat) (rs : Nat) :
    ∀ n, (∀ y < n, (f y).length = rs) →
      ((List.range n).map f).flatten.length = rs * n := by
  intro n
  induction n with
  | zero => simp
  | succ n ih =>
    intro hf
    rw [List.range_succ, List.map_append, List.flatten_append, List.length_append,
      ih (fun y hy => hf y (by omega))]
    simp [hf n (by omega), Nat.mul_succ]

theorem sliceAt_cons_chunk (l rest : List Nat) (m : Nat) (hm : m ≤ l.length) :
    sliceAt (l ++ rest) 0 m = l.take m := by
  simp [sliceAt, List.take_append_eq_append_take, Nat.sub_eq_zero_of_le hm]

theorem sliceAt_flatten_map (f : Nat → List Nat) (c : Nat) (Z : List Nat) :
    ∀ n, (∀ y < n, (f y).length = c) →
      ∀ y < n, ∀ m, m ≤ c →
      sliceAt (((List.range n).map f).flatten ++ Z) (c * y) m = (f y).take m := by
  intro n hf y hy m hm
  have hsplit : List.range n = List.range y ++ y :: List.range' (y + 1) (n - y - 1) :=
    range_split hy
  rw [hsplit, List.map_append, List.flatten_append, List.map_cons, List.flatten_cons]
  have hlenpre : ((List.range y).map f).flatten.length = c * y :=
    length_flatten_rows f c y (fun y' hy' => hf y' (by omega))
  rw [List.append_assoc, sliceAt_append_skip _ _ _ _ (le_of_eq hlenpre), hlenpre,
    Nat.sub_self]
  rw [List.append_assoc]
  exact sliceAt_cons_chunk _ _ m (by rw [hf y hy]; exact hm)

theorem rows_flatten_length (payload : List Nat) (rs padLen n : Nat)
    (hpay : n * (rs + padLen) ≤ payload.length) :
    ((List.range n).map
      (fun y => sliceAt payload (y * (rs + padLen)) rs)).flatten.length = rs * n :=
  length_flatten_rows (fun y => sliceAt payload (y * (rs + padLen)) rs) rs n
    (fun y hy => sliceAt_length_of_le (by
      have h1 : y * (rs + padLen) + (rs + padLen) = (y + 1) * (rs + padLen) := by ring
      have h2 : (y + 1) * (rs + padLen) ≤ n * (rs + padLen) :=
        Nat.mul_le_mul_right _ (by omega)
      omega))

theorem rows_fold_eq (HB payload : List Nat) (rs padLen : Nat) (d0 : List Nat) :
    ∀ n, n * (rs + padLen) ≤ payload.length → rs * n ≤ d0.length →
    (List.range n).foldl
      (fun (acc : List Nat × IStream) y =>
        (writeAt acc.1 (rs * y) (sread acc.2 rs).1,
          (sread (sread acc.2 rs).2 padLen).2))
      (d0, { bytes := HB ++ payload, pos := HB.length, fail := false }) =
    (((List.range n).map (fun y => sliceAt payload (y * (rs + padLen)) rs)).flatten ++
        d0.drop (rs * n),
      { bytes := HB ++ payload, pos := HB.length + n * (rs + padLen), fail := false }) := by
  intro n
  induction n with
  | zero => simp
  | succ n ih =>
    intro hpay hd
    have hple : n * (rs + padLen) ≤ payload.length := by
      have h1 : n * (rs + padLen) ≤ (n + 1) * (rs + padLen) :=
        Nat.mul_le_mul_right _ (by omega)
      omega
    have hmul1 : (n + 1) * (rs + padLen) = n * (rs + padLen) + rs + padLen := by ring
    have hmuls : rs * (n + 1) = rs * n + rs := Nat.mul_succ rs n
    have hflen : ((List.range n).map
        (fun y => sliceAt payload (y * (rs + padLen)) rs)).flatten.length = rs * n :=
      rows_flatten_length payload rs padLen n hple
    rw [List.range_succ, List.foldl_append,
      ih hple (by omega), List.foldl_cons, List.foldl_nil]
    have hlenbuf : (((List.range n).map
        (fun y => sliceAt payload (y * (rs + padLen)) rs)).flatten ++
          d0.drop (rs * n)).length = d0.length := by
      rw [List.length_append, List.length_drop, hflen]
      omega
    simp only []
    rw [sread_ok rfl (by simp only [List.length_append]; omega)]
    simp only []
    rw [sread_ok rfl (by simp only [List.length_append]; omega)]
    simp only []
    rw [sliceAt_append_skip _ _ _ _ (by omega)]
    rw [show HB.length + n * (rs + padLen) - HB.length = n * (rs + padLen) from by omega]
    have hslicelen : (sliceAt payload (n * (rs + padLen)) rs).length = rs :=
      sliceAt_length_of_le (by omega)
    rw [writeAt_eq _ _ _ (by rw [hslicelen, hlenbuf]; omega)]
    have htake : (((List.range n).map
        (fun y => sliceAt payload (y * (rs + padLen)) rs)).flatten ++
          d0.drop (rs * n)).take (rs * n) =
        ((List.range n).map (fun y => sliceAt payload (y * (rs + padLen)) rs)).flatten := by
      rw [List.take_append_eq_append_take, hflen, Nat.sub_self, List.take_zero,
        List.append_nil, List.take_of_length_le (le_of_eq hflen)]
    have hdrop : (((List.range n).map
        (fun y => sliceAt payload (y * (rs + padLen)) rs)).flatten ++
          d0.drop (rs * n)).drop
            (rs * n + (sliceAt payload (n * (rs + padLen)) rs).length) =
        d0.drop (rs * (n + 1)) := by
      rw [hslicelen, List.drop_append_eq_append_drop,
        List.drop_eq_nil_of_le (by rw [hflen]; omega), hflen,
        show rs * n + rs - rs * n = rs from by omega, List.drop_drop, List.nil_append]
      try congr 1
      try omega
    rw [htake, hdrop]
    rw [List.map_append, List.flatten_append, List.map_cons, List.map_nil,
      List.flatten_cons, List.flatten_nil, List.append_nil, List.append_assoc,
      Prod.mk.injEq]
    refine ⟨rfl, ?_⟩
    rw [show HB.length + n * (rs + padLen) + rs + padLen =
        HB.length + (n + 1) * (rs + padLen) from by ring]

theorem sseek_ok (bytes : List Nat) (p₀ off : Nat) :
    sseek { bytes := bytes, pos := p₀, fail := false } off =
      { bytes := bytes, pos := off, fail := false } := by
  simp [sseek]

theorem resizeTo_nil (n : Nat) : resizeTo [] n = List.replicate n 0 := by
  simp [resizeTo]

theorem readPixelData_mk (b : Bitmap) (HB payload : List Nat) (p₀ : Nat)
    (hoffb : b.file_header.offset_data = HB.length)
    (hdata : b.data = [])
    (h0w : 0 ≤ b.bmp_info_header.width) (h0h : 0 ≤ b.bmp_info_header.height)
    (hpay : b.bmp_info_header.width.tmod 4 ≠ 0 →
      b.bmp_info_header.height.toNat *
        (rsOf b.bmp_info_header + padOf b.bmp_info_header) ≤ payload.length) :
    decodedBitmap? (readPixelData b { bytes := HB ++ payload, pos := p₀, fail := false }) =
      some
        { row_stride := if b.bmp_info_header.width.tmod 4 = 0 then b.row_stride
            else rsOf b.bmp_info_header
          imageType := b.imageType
          file_header := { b.file_header with
            offset_data := if b.bmp_info_header.bit_count = 32 then 138 else 54
            file_size := ((if b.bmp_info_header.bit_count = 32 then 138 else 54) +
              allocLen b.bmp_info_header +
              (if b.bmp_info_header.width.tmod 4 = 0 then 0
                else b.bmp_info_header.height.toNat * padOf b.bmp_info_header)) %
              4294967296 }
          bmp_info_header := { b.bmp_info_header with
            size := if b.bmp_info_header.bit_count = 32 then 124 else 40 }
          bmp_color_header := b.bmp_color_header
          data := decodedData b.bmp_info_header payload } := by
  unfold readPixelData
  rw [hoffb, sseek_ok]
  by_cases hbc32 : b.bmp_info_header.bit_count = 32
  · rw [if_pos hbc32, if_pos hbc32, if_pos hbc32]
    by_cases hw4 : b.bmp_info_header.width.tmod 4 = 0
    · rw [if_pos hw4, if_pos hw4, if_pos hw4]
      dsimp only []
      rw [hdata, resizeTo_nil]
      simp only [sread, Bool.false_eq_true, if_false, List.length_replicate]
      rw [sliceAt_append_skip _ _ _ _ (le_refl _), Nat.sub_self]
      rw [writeAt_eq _ _ _ (by
        rw [List.length_replicate]
        simpa using sliceAt_length_le payload 0 (allocLen b.bmp_info_header))]
      rw [List.take_zero, List.nil_append, Nat.zero_add, List.drop_replicate]
      rw [show decodedData b.bmp_info_header payload =
        sliceAt payload 0 (allocLen b.bmp_info_header) ++
          List.replicate (allocLen b.bmp_info_header -
            (sliceAt payload 0 (allocLen b.bmp_info_header)).length) 0 from by
          unfold decodedData
          rw [if_pos hw4]]
      rfl
    · rw [if_neg hw4, if_neg hw4, if_neg hw4]
      dsimp only []
      rw [hdata, resizeTo_nil]
      rw [show ((b.bmp_info_header.width * 3 * 3 * b.bmp_info_header.height *
          (b.bmp_info_header.bit_count : Int)).tdiv 8).toNat =
        allocLen b.bmp_info_header from rfl]
      rw [show ((b.bmp_info_header.width *
          (b.bmp_info_header.bit_count : Int)).tdiv 8).toNat =
        rsOf b.bmp_info_header from rfl]
      rw [show make_stride_aligned (rsOf b.bmp_info_header) 4 - rsOf b.bmp_info_header =
        padOf b.bmp_info_header from rfl]
      rw [rows_fold_eq HB payload (rsOf b.bmp_info_header) (padOf b.bmp_info_header)
        (List.replicate (allocLen b.bmp_info_header) 0)
        b.bmp_info_header.height.toNat
        (by have h9 := hpay hw4; omega)
        (by rw [List.length_replicate]; exact rows_le_alloc h0w h0h)]
      dsimp only []
      rw [List.drop_replicate]
      rw [show decodedData b.bmp_info_header payload =
        ((List.range b.bmp_info_header.height.toNat).map
          (fun y => sliceAt payload
            (y * (rsOf b.bmp_info_header + padOf b.bmp_info_header))
            (rsOf b.bmp_info_header))).flatten ++
          List.replicate (allocLen b.bmp_info_header -
            rsOf b.bmp_info_header * b.bmp_info_header.height.toNat) 0 from by
          unfold decodedData
          rw [if_neg hw4]]
      have hlen9 : (((List.range b.bmp_info_header.height.toNat).map
          (fun y => sliceAt payload
            (y * (rsOf b.bmp_info_header + padOf b.bmp_info_header))
            (rsOf b.bmp_info_header))).flatten ++
          List.replicate (allocLen b.bmp_info_header -
            rsOf b.bmp_info_header * b.bmp_info_header.height.toNat) 0).length =
        allocLen b.bmp_info_header := by
        rw [List.length_append, List.length_replicate,
          rows_flatten_length payload (rsOf b.bmp_info_header)
            (padOf b.bmp_info_header) b.bmp_info_header.height.toNat
            (by have h9 := hpay hw4; omega)]
        have h8 := rows_le_alloc h0w h0h
        omega
      rw [hlen9]
      rfl
  · rw [if_neg hbc32, if_neg hbc32, if_neg hbc32]
    by_cases hw4 : b.bmp_info_header.width.tmod 4 = 0
    · rw [if_pos hw4, if_pos hw4, if_pos hw4]
      dsimp only []
      rw [hdata, resizeTo_nil]
      simp only [sread, Bool.false_eq_true, if_false, List.length_replicate]
      rw [sliceAt_append_skip _ _ _ _ (le_refl _), Nat.sub_self]
      rw [writeAt_eq _ _ _ (by
        rw [List.length_replicate]
        simpa using sliceAt_length_le payload 0 (allocLen b.bmp_info_header))]
      rw [List.take_zero, List.nil_append, Nat.zero_add, List.drop_replicate]
      rw [show decodedData b.bmp_info_header payload =
        sliceAt payload 0 (allocLen b.bmp_info_header) ++
          List.replicate (allocLen b.bmp_info_header -
            (sliceAt payload 0 (allocLen b.bmp_info_header)).length) 0 from by
          unfold decodedData
          rw [if_pos hw4]]
      rfl
    · rw [if_neg hw4, if_neg hw4, if_neg hw4]
      dsimp only []
      rw [hdata, resizeTo_nil]
      rw [show ((b.bmp_info_header.width * 3 * 3 * b.bmp_info_header.height *
          (b.bmp_info_header.bit_count : Int)).tdiv 8).toNat =
        allocLen b.bmp_info_header from rfl]
      rw [show ((b.bmp_info_header.width *
          (b.bmp_info_header.bit_count : Int)).tdiv 8).toNat =
        rsOf b.bmp_info_header from rfl]
      rw [show make_stride_aligned (rsOf b.bmp_info_header) 4 - rsOf b.bmp_info_header =
        padOf b.bmp_info_header from rfl]
      rw [rows_fold_eq HB payload (rsOf b.bmp_info_header) (padOf b.bmp_info_header)
        (List.replicate (allocLen b.bmp_info_header) 0)
        b.bmp_info_header.height.toNat
        (by have h9 := hpay hw4; omega)
        (by rw [List.length_replicate]; exact rows_le_alloc h0w h0h)]
      dsimp only []
      rw [List.drop_replicate]
      rw [show decodedData b.bmp_info_header payload =
        ((List.range b.bmp_info_header.height.toNat).map
          (fun y => sliceAt payload
            (y * (rsOf b.bmp_info_header + padOf b.bmp_info_header))
            (rsOf b.bmp_info_header))).flatten ++
          List.replicate (allocLen b.bmp_info_header -
            rsOf b.bmp_info_header * b.bmp_info_header.height.toNat) 0 from by
          unfold decodedData
          rw [if_neg hw4]]
      have hlen9 : (((List.range b.bmp_info_header.height.toNat).map
          (fun y => sliceAt payload
            (y * (rsOf b.bmp_info_header + padOf b.bmp_info_header))
            (rsOf b.bmp_info_header))).flatten ++
          List.replicate (allocLen b.bmp_info_header -
            rsOf b.bmp_info_header * b.bmp_info_header.height.toNat) 0).length =
        allocLen b.bmp_info_header := by
        rw [List.length_append, List.length_replicate,
          rows_flatten_length payload (rsOf b.bmp_info_header)
            (padOf b.bmp_info_header) b.bmp_info_header.height.toNat
            (by have h9 := hpay hw4; omega)]
        have h8 := rows_le_alloc h0w h0h
        omega
      rw [hlen9]
      rfl

theorem readBitmap_mk (fh : BMPFileHeader) (ih : BMPInfoHeader) (ch : BMPColorHeader)
    (payload : List Nat)
    (hwfF : fh.WF) (hwfI : ih.WF) (hwfC : ch.WF)
    (hft : fh.file_type = 0x4D42)
    (hoff : fh.offset_data = if ih.bit_count = 32 then 138 else 54)
    (hsz : ih.bit_count = 32 → 124 ≤ ih.size)
    (h0w : 0 ≤ ih.width) (h0h : 0 ≤ ih.height)
    (hpay : ih.width.tmod 4 ≠ 0 →
      ih.height.toNat * (rsOf ih + padOf ih) ≤ payload.length) :
    decodedBitmap? (readBitmap Bitmap.default (mkBMPStream fh ih ch payload)) =
      some (decodedBMP fh ih ch payload) := by
  unfold readBitmap mkBMPStream
  try dsimp only []
  simp only [List.append_assoc]
  rw [sread_ok rfl (by
    simp only [List.length_append, serFileHeader_length]
    omega)]
  try dsimp only []
  rw [sliceAt_exact _ _ 14 (serFileHeader_length fh)]
  rw [show patchBytes (serFileHeader Bitmap.default.file_header) (serFileHeader fh) =
      serFileHeader fh from by
    unfold patchBytes
    rw [serFileHeader_length, List.drop_eq_nil_of_le (by rw [serFileHeader_length]),
      List.append_nil]]
  rw [show parseFileHeader (serFileHeader fh) = fh from by
    have h9 := parse_serFileHeader hwfF []
    rwa [List.append_nil] at h9]
  rw [if_neg (show ¬(fh.file_type ≠ 0x4D42) from fun hc => hc hft)]
  try dsimp only []
  rw [sread_ok rfl (by
    simp only [List.length_append, serFileHeader_length, serInfoHeader_length]
    omega)]
  try dsimp only []
  rw [show (0:Nat) + 14 = 14 from rfl]
  rw [sliceAt_append_skip _ _ _ _ (by rw [serFileHeader_length]),
    serFileHeader_length, Nat.sub_self, sliceAt_exact _ _ 40 (serInfoHeader_length ih)]
  rw [show patchBytes (serInfoHeader Bitmap.default.bmp_info_header) (serInfoHeader ih) =
      serInfoHeader ih from by
    unfold patchBytes
    rw [serInfoHeader_length, List.drop_eq_nil_of_le (by rw [serInfoHeader_length]),
      List.append_nil]]
  rw [show parseInfoHeader (serInfoHeader ih) = ih from by
    have h9 := parse_serInfoHeader hwfI []
    rwa [List.append_nil] at h9]
  try dsimp only []
  by_cases hbc32 : ih.bit_count = 32
  · rw [if_pos hbc32, if_pos hbc32, if_pos (hsz hbc32)]
    try dsimp only []
    rw [sread_ok rfl (by
      simp only [List.length_append, serFileHeader_length, serInfoHeader_length,
        serColorHeader_length]
      omega)]
    try dsimp only []
    rw [show (14:Nat) + 40 = 54 from rfl]
    rw [sliceAt_append_skip _ _ _ _ (by rw [serFileHeader_length]; omega),
      serFileHeader_length]
    rw [show (54:Nat) - 14 = 40 from rfl]
    rw [sliceAt_append_skip _ _ _ _ (by rw [serInfoHeader_length]),
      serInfoHeader_length, Nat.sub_self, sliceAt_exact _ _ 84 (serColorHeader_length ch)]
    rw [show patchBytes (serColorHeader Bitmap.default.bmp_color_header)
        (serColorHeader ch) = serColorHeader ch from by
      unfold patchBytes
      rw [serColorHeader_length, List.drop_eq_nil_of_le (by rw [serColorHeader_length]),
        List.append_nil]]
    rw [show parseColorHeader (serColorHeader ch) = ch from by
      have h9 := parse_serColorHeader hwfC []
      rwa [List.append_nil] at h9]
    rw [show serFileHeader fh ++ (serInfoHeader ih ++ (serColorHeader ch ++ payload)) =
        (serFileHeader fh ++ (serInfoHeader ih ++ serColorHeader ch)) ++ payload from by
      simp [List.append_assoc]]
    have hmk := readPixelData_mk
      { Bitmap.default with
          file_header := fh
          bmp_info_header := ih
          imageType := ih.bit_count / 8
          bmp_color_header := ch }
      (serFileHeader fh ++ (serInfoHeader ih ++ serColorHeader ch)) payload (54 + 84)
      (by
        simp only [List.length_append, serFileHeader_length, serInfoHeader_length,
          serColorHeader_length]
        rw [hoff, if_pos hbc32])
      rfl h0w h0h hpay
    rw [hmk]
    unfold decodedBMP
    rw [if_pos hbc32, if_pos hbc32, if_pos hbc32]
    rfl
  · rw [if_neg hbc32, if_neg hbc32]
    rw [List.nil_append]
    rw [show serFileHeader fh ++ (serInfoHeader ih ++ payload) =
        (serFileHeader fh ++ serInfoHeader ih) ++ payload from by
      simp [List.append_assoc]]
    have hmk := readPixelData_mk
      { Bitmap.default with
          file_header := fh
          bmp_info_header := ih
          imageType := ih.bit_count / 8 }
      (serFileHeader fh ++ serInfoHeader ih) payload (0 + 14 + 40)
      (by
        simp only [List.length_append, serFileHeader_length, serInfoHeader_length]
        rw [hoff, if_neg hbc32])
      rfl h0w h0h hpay
    rw [hmk]
    unfold decodedBMP
    rw [if_neg hbc32, if_neg hbc32, if_neg hbc32]
    rfl

def encPayload (ih : BMPInfoHeader) (payload : List Nat) : List Nat :=
  if ih.bit_count = 24 ∧ ih.width.tmod 4 ≠ 0 then
    ((List.range ih.height.toNat).map
      (fun y => sliceAt (decodedData ih payload) (rsOf ih * y) (rsOf ih) ++
        List.replicate (padOf ih) 0)).flatten
  else decodedData ih payload

theorem decodedData_length2 (ih : BMPInfoHeader) (payload : List Nat)
    (h0w : 0 ≤ ih.width) (h0h : 0 ≤ ih.height)
    (hpay : ih.width.tmod 4 ≠ 0 →
      ih.height.toNat * (rsOf ih + padOf ih) ≤ payload.length) :
    (decodedData ih payload).length = allocLen ih :=
  decodedData_length payload h0w h0h
    (fun hne => rows_flatten_length payload _ _ _ (by have h9 := hpay hne; omega))

theorem writeBitmap_decodedBMP (fh : BMPFileHeader) (ih : BMPInfoHeader)
    (ch : BMPColorHeader) (payload : List Nat)
    (hbc : ih.bit_count = 24 ∨ ih.bit_count = 32) :
    writeBitmap (decodedBMP fh ih ch payload) =
      .ok (mkBMPStream (decodedBMP fh ih ch payload).file_header
        (decodedBMP fh ih ch payload).bmp_info_header
        (decodedBMP fh ih ch payload).bmp_color_header
        (encPayload ih payload)) := by
  have hbcp : (decodedBMP fh ih ch payload).bmp_info_header.bit_count = ih.bit_count := rfl
  unfold writeBitmap
  rcases hbc with hbc | hbc
  · rw [if_neg (by rw [hbcp, hbc]; omega), if_pos (by rw [hbcp, hbc])]
    by_cases hw4 : ih.width.tmod 4 = 0
    · rw [if_pos (show (decodedBMP fh ih ch payload).bmp_info_header.width.tmod 4 = 0
        from hw4)]
      unfold write_headers_and_data write_headers mkBMPStream encPayload
      rw [if_neg (show ¬(ih.bit_count = 24 ∧ ih.width.tmod 4 ≠ 0) from by
        intro hc
        exact hc.2 hw4)]
      rw [show (decodedBMP fh ih ch payload).data = decodedData ih payload from rfl]
    · rw [if_neg (show ¬(decodedBMP fh ih ch payload).bmp_info_header.width.tmod 4 = 0
        from hw4)]
      unfold write_headers mkBMPStream encPayload
      rw [if_pos (show ih.bit_count = 24 ∧ ih.width.tmod 4 ≠ 0 from ⟨hbc, hw4⟩)]
      rw [show (decodedBMP fh ih ch payload).row_stride = rsOf ih from by
        unfold decodedBMP
        rw [if_neg hw4]]
      rw [show (decodedBMP fh ih ch payload).bmp_info_header.height = ih.height from rfl]
      rw [show (decodedBMP fh ih ch payload).data = decodedData ih payload from rfl]
      rfl
  · rw [if_pos (by rw [hbcp, hbc])]
    unfold write_headers_and_data write_headers mkBMPStream encPayload
    rw [if_neg (show ¬(ih.bit_count = 24 ∧ ih.width.tmod 4 ≠ 0) from by
      intro hc
      rw [hbc] at hc
      omega)]
    rw [show (decodedBMP fh ih ch payload).data = decodedData ih payload from rfl]

theorem sliceAt_flatten_map_nil (f : Nat → List Nat) (c : Nat) (n : Nat)
    (hf : ∀ y < n, (f y).length = c) (y : Nat) (hy : y < n) (m : Nat) (hm : m ≤ c) :
    sliceAt ((List.range n).map f).flatten (c * y) m = (f y).take m := by
  have h9 := sliceAt_flatten_map f c [] n hf y hy m hm
  rwa [List.append_nil] at h9

theorem decodedData_encPayload (ih : BMPInfoHeader) (payload : List Nat)
    (hbc : ih.bit_count = 24 ∨ ih.bit_count = 32)
    (h0w : 0 ≤ ih.width) (h0h : 0 ≤ ih.height)
    (hpay : ih.width.tmod 4 ≠ 0 →
      ih.height.toNat * (rsOf ih + padOf ih) ≤ payload.length) :
    decodedData ih (encPayload ih payload) = decodedData ih payload := by
  have hD : (decodedData ih payload).length = allocLen ih :=
    decodedData_length2 ih payload h0w h0h hpay
  have hDform : decodedData ih payload =
      ((List.range ih.height.toNat).map
        (fun y => sliceAt payload (y * (rsOf ih + padOf ih)) (rsOf ih))).flatten ++
      List.replicate (allocLen ih - rsOf ih * ih.height.toNat) 0 ∨
      ih.width.tmod 4 = 0 := by
    by_cases hw4 : ih.width.tmod 4 = 0
    · exact Or.inr hw4
    · left
      unfold decodedData
      rw [if_neg hw4]
  by_cases hw4 : ih.width.tmod 4 = 0
  · rw [show encPayload ih payload = decodedData ih payload from by
      unfold encPayload
      rw [if_neg (fun hc => hc.2 hw4)]]
    have hslice : sliceAt (decodedData ih payload) 0 (allocLen ih) =
        decodedData ih payload := by
      unfold sliceAt
      rw [List.drop_zero, List.take_of_length_le (le_of_eq hD)]
    conv_lhs => rw [decodedData]
    rw [if_pos hw4, hslice, hD, Nat.sub_self]
    simp
  · have hDrows : decodedData ih payload =
        ((List.range ih.height.toNat).map
          (fun y => sliceAt payload (y * (rsOf ih + padOf ih)) (rsOf ih))).flatten ++
        List.replicate (allocLen ih - rsOf ih * ih.height.toNat) 0 := by
      rcases hDform with h | h
      · exact h
      · exact absurd h hw4
    have hpay4 := hpay hw4
    have hralloc := rows_le_alloc h0w h0h
    have hf : ∀ y < ih.height.toNat,
        (sliceAt payload (y * (rsOf ih + padOf ih)) (rsOf ih)).length = rsOf ih := by
      intro y hy
      refine sliceAt_length_of_le ?_
      have h1 : y * (rsOf ih + padOf ih) + (rsOf ih + padOf ih) =
          (y + 1) * (rsOf ih + padOf ih) := by ring
      have h2 : (y + 1) * (rsOf ih + padOf ih) ≤
          ih.height.toNat * (rsOf ih + padOf ih) :=
        Nat.mul_le_mul_right _ (by omega)
      omega
    have hsliceD : ∀ y < ih.height.toNat,
        sliceAt (decodedData ih payload) (rsOf ih * y) (rsOf ih) =
          sliceAt payload (y * (rsOf ih + padOf ih)) (rsOf ih) := by
      intro y hy
      rw [hDrows,
        sliceAt_flatten_map _ (rsOf ih) _ ih.height.toNat hf y hy (rsOf ih) (le_refl _),
        List.take_of_length_le (le_of_eq (hf y hy))]
    rcases hbc with hbc | hbc
    · -- 24bpp unaligned: the encoder re-pads each row
      rw [show encPayload ih payload =
          ((List.range ih.height.toNat).map
            (fun y => sliceAt (decodedData ih payload) (rsOf ih * y) (rsOf ih) ++
              List.replicate (padOf ih) 0)).flatten from by
        unfold encPayload
        rw [if_pos ⟨hbc, hw4⟩]]
      have hg : ∀ y < ih.height.toNat,
          (sliceAt (decodedData ih payload) (rsOf ih * y) (rsOf ih) ++
            List.replicate (padOf ih) 0).length = rsOf ih + padOf ih := by
        intro y hy
        rw [List.length_append, List.length_replicate, hsliceD y hy, hf y hy]
      conv_lhs => rw [decodedData]
      rw [if_neg hw4]
      conv_rhs => rw [hDrows]
      congr 1
      congr 1
      refine List.map_congr_left ?_
      intro y hy
      rw [List.mem_range] at hy
      rw [Nat.mul_comm y (rsOf ih + padOf ih)]
      rw [sliceAt_flatten_map_nil _ (rsOf ih + padOf ih) ih.height.toNat hg y hy
        (rsOf ih) (by omega)]
      rw [List.take_append_eq_append_take, hsliceD y hy, hf y hy, Nat.sub_self,
        List.take_zero, List.append_nil, List.take_of_length_le (le_of_eq (hf y hy))]
      rw [Nat.mul_comm y (rsOf ih + padOf ih)]
    · -- 32bpp unaligned: no padding, the encoder emits the buffer as is
      have hpad : padOf ih = 0 := padOf_32 h0w hbc
      rw [show encPayload ih payload = decodedData ih payload from by
        unfold encPayload
        rw [if_neg (by intro hc; rw [hbc] at hc; omega)]]
      conv_lhs => rw [decodedData]
      rw [if_neg hw4]
      conv_rhs => rw [hDrows]
      congr 1
      congr 1
      refine List.map_congr_left ?_
      intro y hy
      rw [List.mem_range] at hy
      have hidx : y * (rsOf ih + padOf ih) = rsOf ih * y := by
        rw [hpad]
        ring
      rw [hidx]
      rw [hDrows,
        sliceAt_flatten_map _ (rsOf ih) _ ih.height.toNat hf y hy (rsOf ih) (le_refl _),
        List.take_of_length_le (le_of_eq (hf y hy)), hidx]

theorem default_color_WF : Bitmap.default.bmp_color_header.WF := by
  refine ⟨by decide, by decide, by decide, by decide, by decide, by decide⟩

theorem encPayload_length_ge (ih : BMPInfoHeader) (payload : List Nat)
    (hbc : ih.bit_count = 24 ∨ ih.bit_count = 32)
    (h0w : 0 ≤ ih.width) (h0h : 0 ≤ ih.height)
    (hpay : ih.width.tmod 4 ≠ 0 →
      ih.height.toNat * (rsOf ih + padOf ih) ≤ payload.length)
    (hne : ih.width.tmod 4 ≠ 0) :
    ih.height.toNat * (rsOf ih + padOf ih) ≤ (encPayload ih payload).length := by
  have hD : (decodedData ih payload).length = allocLen ih :=
    decodedData_length2 ih payload h0w h0h hpay
  have hralloc := rows_le_alloc h0w h0h
  rcases hbc with hbc | hbc
  · rw [show encPayload ih payload =
        ((List.range ih.height.toNat).map
          (fun y => sliceAt (decodedData ih payload) (rsOf ih * y) (rsOf ih) ++
            List.replicate (padOf ih) 0)).flatten from by
      unfold encPayload
      rw [if_pos ⟨hbc, hne⟩]]
    rw [length_flatten_rows
      (fun y => sliceAt (decodedData ih payload) (rsOf ih * y) (rsOf ih) ++
        List.replicate (padOf ih) 0)
      (rsOf ih + padOf ih) ih.height.toNat
      (fun y hy => by
        rw [List.length_append, List.length_replicate, sliceAt_length_of_le (by
          rw [hD]
          have h1 : rsOf ih * y + rsOf ih = rsOf ih * (y + 1) := by ring
          have h2 : rsOf ih * (y + 1) ≤ rsOf ih * ih.height.toNat :=
            Nat.mul_le_mul_left _ (by omega)
          omega)])]
    rw [Nat.mul_comm]
  · rw [show encPayload ih payload = decodedData ih payload from by
      unfold encPayload
      rw [if_neg (by intro hc; rw [hbc] at hc; omega)]]
    rw [hD, padOf_32 h0w hbc]
    calc ih.height.toNat * (rsOf ih + 0) = rsOf ih * ih.height.toNat := by ring
      _ ≤ allocLen ih := hralloc

/-- C1: decoding a well-formed 24bpp or 32bpp BMP byte stream (header fields
in range, `BM` magic, the standard pixel-data offset 54/138, a 124-byte-or-more
DIB size for 32bpp, nonnegative dimensions, and a full pixel array when the
row loop is taken), re-encoding the resulting `Bitmap` immediately with
`operator<<`, and decoding again succeeds and yields a bitmap whose pixel
buffer is byte-for-byte identical and whose normalized header fields
(`size`, `offset_data`, `file_size`, `width`, `height`, `bit_count`) are
identical. -/
theorem c1_roundtrip (fh : BMPFileHeader) (ih : BMPInfoHeader) (ch : BMPColorHeader)
    (payload : List Nat)
    (hwfF : fh.WF) (hwfI : ih.WF) (hwfC : ch.WF)
    (hft : fh.file_type = 0x4D42)
    (hbc : ih.bit_count = 24 ∨ ih.bit_count = 32)
    (hoff : fh.offset_data = if ih.bit_count = 32 then 138 else 54)
    (hsz : ih.bit_count = 32 → 124 ≤ ih.size)
    (h0w : 0 ≤ ih.width) (h0h : 0 ≤ ih.height)
    (hpay : ih.width.tmod 4 ≠ 0 →
      ih.height.toNat * (rsOf ih + padOf ih) ≤ payload.length) :
    ∃ b₁ out b₂,
      decodedBitmap? (readBitmap Bitmap.default (mkBMPStream fh ih ch payload)) =
        some b₁ ∧
      writeBitmap b₁ = .ok out ∧
      decodedBitmap? (readBitmap Bitmap.default out) = some b₂ ∧
      b₂.data = b₁.data ∧
      b₂.bmp_info_header.size = b₁.bmp_info_header.size ∧
      b₂.file_header.offset_data = b₁.file_header.offset_data ∧
      b₂.file_header.file_size = b₁.file_header.file_size ∧
      b₂.bmp_info_header.width = b₁.bmp_info_header.width ∧
      b₂.bmp_info_header.height = b₁.bmp_info_header.height ∧
      b₂.bmp_info_header.bit_count = b₁.bmp_info_header.bit_count := by
  have hwfF1 : (decodedBMP fh ih ch payload).file_header.WF := by
    obtain ⟨w1, w2, w3, w4, w5⟩ := hwfF
    refine ⟨w1, Nat.mod_lt _ (by norm_num), w3, w4, ?_⟩
    show (if ih.bit_count = 32 then 138 else 54) < 2 ^ 32
    split <;> norm_num
  have hwfI1 : (decodedBMP fh ih ch payload).bmp_info_header.WF := by
    obtain ⟨i1, i2, i3, i4, i5, i6, i7, i8, i9, i10, i11, i12, i13, i14, i15⟩ := hwfI
    refine ⟨?_, i2, i3, i4, i5, i6, i7, i8, i9, i10, i11, i12, i13, i14, i15⟩
    show (if ih.bit_count = 32 then 124 else 40) < 2 ^ 32
    split <;> norm_num
  have hwfC1 : (decodedBMP fh ih ch payload).bmp_color_header.WF := by
    show (if ih.bit_count = 32 then ch else Bitmap.default.bmp_color_header).WF
    split
    · exact hwfC
    · exact default_color_WF
  have hsz1 : (decodedBMP fh ih ch payload).bmp_info_header.bit_count = 32 →
      124 ≤ (decodedBMP fh ih ch payload).bmp_info_header.size := by
    intro h
    show 124 ≤ (if ih.bit_count = 32 then 124 else 40)
    rw [if_pos (show ih.bit_count = 32 from h)]
  have hpay1 : (decodedBMP fh ih ch payload).bmp_info_header.width.tmod 4 ≠ 0 →
      (decodedBMP fh ih ch payload).bmp_info_header.height.toNat *
        (rsOf (decodedBMP fh ih ch payload).bmp_info_header +
          padOf (decodedBMP fh ih ch payload).bmp_info_header) ≤
        (encPayload ih payload).length := by
    intro hne
    exact encPayload_length_ge ih payload hbc h0w h0h hpay hne
  have hdec2 := readBitmap_mk (decodedBMP fh ih ch payload).file_header
    (decodedBMP fh ih ch payload).bmp_info_header
    (decodedBMP fh ih ch payload).bmp_color_header
    (encPayload ih payload)
    hwfF1 hwfI1 hwfC1 hft rfl hsz1 h0w h0h hpay1
  refine ⟨decodedBMP fh ih ch payload, _, _,
    readBitmap_mk fh ih ch payload hwfF hwfI hwfC hft hoff hsz h0w h0h hpay,
    writeBitmap_decodedBMP fh ih ch payload hbc,
    hdec2, ?_, rfl, rfl, rfl, rfl, rfl, rfl⟩
  show decodedData ih (encPayload ih payload) = decodedData ih payload
  exact decodedData_encPayload ih payload hbc h0w h0h hpay

/-- C2 (amended): a successful decode of a well-formed stream sets
`row_stride` to `width * bit_count / 8` **only** in the `width % 4 ≠ 0`
branch; in the aligned branch `row_stride` keeps its default value 0 (the
source computes the aligned stride but never stores it), so the claimed
invariant `row_stride % 4 = 0 ∧ row_stride ≥ width*bytes_per_pixel` fails
whenever `width % 4 = 0` (and also, for the `%4` part, for 24bpp unaligned
widths). -/
theorem c2_stride_amended (fh : BMPFileHeader) (ih : BMPInfoHeader)
    (ch : BMPColorHeader) (payload : List Nat)
    (hwfF : fh.WF) (hwfI : ih.WF) (hwfC : ch.WF)
    (hft : fh.file_type = 0x4D42)
    (hoff : fh.offset_data = if ih.bit_count = 32 then 138 else 54)
    (hsz : ih.bit_count = 32 → 124 ≤ ih.size)
    (h0w : 0 ≤ ih.width) (h0h : 0 ≤ ih.height)
    (hpay : ih.width.tmod 4 ≠ 0 →
      ih.height.toNat * (rsOf ih + padOf ih) ≤ payload.length) :
    ∃ b₁, decodedBitmap? (readBitmap Bitmap.default (mkBMPStream fh ih ch payload)) =
        some b₁ ∧
      b₁.row_stride = if b₁.bmp_info_header.width.tmod 4 = 0 then 0
        else b₁.bmp_info_header.width.toNat * b₁.bmp_info_header.bit_count / 8 := by
  refine ⟨decodedBMP fh ih ch payload,
    readBitmap_mk fh ih ch payload hwfF hwfI hwfC hft hoff hsz h0w h0h hpay, ?_⟩
  show (if ih.width.tmod 4 = 0 then 0 else rsOf ih) =
    if ih.width.tmod 4 = 0 then 0 else ih.width.toNat * ih.bit_count / 8
  by_cases hw4 : ih.width.tmod 4 = 0
  · rw [if_pos hw4, if_pos hw4]
  · rw [if_neg hw4, if_neg hw4, rsOf_eq h0w]

def fhW : BMPFileHeader :=
  { file_type := 0x4D42, file_size := 0, reserved1 := 0, reserved2 := 0,
    offset_data := 54 }

def ihW : BMPInfoHeader :=
  { size := 40, width := 4, height := 1, planes := 1, bit_count := 24,
    compression := 0, size_image := 0, x_pixels_per_meter := 0,
    y_pixels_per_meter := 0, colors_used := 0, colors_important := 0 }

def payloadW : List Nat := List.replicate 12 7

def fhW2 : BMPFileHeader :=
  { file_type := 0x4D42, file_size := 0, reserved1 := 0, reserved2 := 0,
    offset_data := 138 }

def ihW2 : BMPInfoHeader :=
  { size := 124, width := 4, height := 1, planes := 1, bit_count := 32,
    compression := 0, size_image := 0, x_pixels_per_meter := 0,
    y_pixels_per_meter := 0, colors_used := 0, colors_important := 0 }

/-- Witness: C1 applied to a concrete aligned 4×1 24bpp stream. -/
theorem c1_roundtrip_witness :
    (fhW.WF ∧ ihW.WF ∧ Bitmap.default.bmp_color_header.WF ∧
      fhW.file_type = 0x4D42 ∧ (ihW.bit_count = 24 ∨ ihW.bit_count = 32) ∧
      fhW.offset_data = (if ihW.bit_count = 32 then 138 else 54) ∧
      (ihW.bit_count = 32 → 124 ≤ ihW.size) ∧ 0 ≤ ihW.width ∧ 0 ≤ ihW.height ∧
      (ihW.width.tmod 4 ≠ 0 →
        ihW.height.toNat * (rsOf ihW + padOf ihW) ≤ payloadW.length)) ∧
    (∃ b₁ out b₂,
      decodedBitmap? (readBitmap Bitmap.default
          (mkBMPStream fhW ihW Bitmap.default.bmp_color_header payloadW)) = some b₁ ∧
      writeBitmap b₁ = .ok out ∧
      decodedBitmap? (readBitmap Bitmap.default out) = some b₂ ∧
      b₂.data = b₁.data ∧
      b₂.bmp_info_header.size = b₁.bmp_info_header.size ∧
      b₂.file_header.offset_data = b₁.file_header.offset_data ∧
      b₂.file_header.file_size = b₁.file_header.file_size ∧
      b₂.bmp_info_header.width = b₁.bmp_info_header.width ∧
      b₂.bmp_info_header.height = b₁.bmp_info_header.height ∧
      b₂.bmp_info_header.bit_count = b₁.bmp_info_header.bit_count) :=
  ⟨⟨⟨by decide, by decide, by decide, by decide, by decide⟩,
    ⟨by decide, by decide, by decide, by decide, by decide, by decide, by decide,
      by decide, by decide, by decide, by decide, by decide, by decide, by decide,
      by decide⟩,
    default_color_WF, by decide, Or.inl (by decide), by decide, by decide, by decide,
    by decide, fun hne => absurd (by decide) hne⟩,
    c1_roundtrip fhW ihW Bitmap.default.bmp_color_header payloadW
      ⟨by decide, by decide, by decide, by decide, by decide⟩
      ⟨by decide, by decide, by decide, by decide, by decide, by decide, by decide,
        by decide, by decide, by decide, by decide, by decide, by decide, by decide,
        by decide⟩
      default_color_WF (by decide) (Or.inl (by decide)) (by decide) (by decide)
      (by decide) (by decide) (fun hne => absurd (by decide) hne)⟩

/-- Witness: the amended C2 applied to a concrete aligned 4×1 32bpp stream
(the decoded `row_stride` is 0). -/
theorem c2_stride_amended_witness :
    (fhW2.WF ∧ ihW2.WF ∧ Bitmap.default.bmp_color_header.WF ∧
      fhW2.file_type = 0x4D42 ∧
      fhW2.offset_data = (if ihW2.bit_count = 32 then 138 else 54) ∧
      (ihW2.bit_count = 32 → 124 ≤ ihW2.size) ∧ 0 ≤ ihW2.width ∧ 0 ≤ ihW2.height ∧
      (ihW2.width.tmod 4 ≠ 0 →
        ihW2.height.toNat * (rsOf ihW2 + padOf ihW2) ≤ payloadW.length)) ∧
    (∃ b₁, decodedBitmap? (readBitmap Bitmap.default
        (mkBMPStream fhW2 ihW2 Bitmap.default.bmp_color_header payloadW)) = some b₁ ∧
      b₁.row_stride = if b₁.bmp_info_header.width.tmod 4 = 0 then 0
        else b₁.bmp_info_header.width.toNat * b₁.bmp_info_header.bit_count / 8) :=
  ⟨⟨⟨by decide, by decide, by decide, by decide, by decide⟩,
    ⟨by decide, by decide, by decide, by decide, by decide, by decide, by decide,
      by decide, by decide, by decide, by decide, by decide, by decide, by decide,
      by decide⟩,
    default_color_WF, by decide, by decide, by decide, by decide, by decide,
    fun hne => absurd (by decide) hne⟩,
    c2_stride_amended fhW2 ihW2 Bitmap.default.bmp_color_header payloadW
      ⟨by decide, by decide, by decide, by decide, by decide⟩
      ⟨by decide, by decide, by decide, by decide, by decide, by decide, by decide,
        by decide, by decide, by decide, by decide, by decide, by decide, by decide,
        by decide⟩
      default_color_WF (by decide) (by decide) (by decide) (by decide) (by decide)
      (fun hne => absurd (by decide) hne)⟩

end BitmapImage
